import Mathlib

/-! FiveM XDP filter (`fivem_xdp.c`).

A shallow embedding of the XDP program `fivem_xdp` and proofs about its verdicts.

Modelling conventions.

* A packet is the byte range `data .. data_end`, a list of bytes; `data_end - data` is its
  length.  Every load from the packet returns `Option`: `none` is a read outside the range.
* The program is compiled for a little-endian BPF target: multi-byte loads are little-endian
  and the source's `htons`/`htonl` macros swap bytes unconditionally.
* The two per-CPU array maps are modelled for one CPU (one shard) as the list of their slots;
  a lookup fails exactly when the key is not below the number of slots.
* `__u64` values are natural numbers; subtraction and addition wrap modulo `2^64` explicitly.
-/

namespace FivemXdp

/-! ## Constants -/

/-- The return codes of an XDP program used by `fivem_xdp` (`enum xdp_action` of `linux/bpf.h`). -/
inductive xdp_action
  | XDP_ABORTED
  | XDP_DROP
  | XDP_PASS
  deriving DecidableEq

open xdp_action

/-- Source line 12: `#define FIVEM_SERVER_IP 0x7F000001`, 127.0.0.1. -/
def FIVEM_SERVER_IP : Nat := 0x7F000001
/-- Source line 13. -/
def FIVEM_SERVER_PORT : Nat := 30120
/-- Source line 14. -/
def MUMBLE_SERVER_PORT : Nat := 30121
/-- Source line 15. -/
def HTTP_SERVER_PORT : Nat := 80
/-- Source line 16. -/
def HTTPS_SERVER_PORT : Nat := 443
/-- Source line 17: maximum number of packets allowed per second. -/
def RATE_LIMIT : Nat := 13000

/-- EtherType of IPv4, `ETH_P_IP` of `linux/if_ether.h`. -/
def ETH_P_IP : Nat := 0x0800
/-- IP protocol number of TCP, `linux/in.h`. -/
def IPPROTO_TCP : Nat := 6
/-- IP protocol number of UDP, `linux/in.h`. -/
def IPPROTO_UDP : Nat := 17

/-- The value of `sizeof(struct ethhdr)`. -/
def sizeof_ethhdr : Nat := 14
/-- The value of `sizeof(struct iphdr)`. -/
def sizeof_iphdr : Nat := 20
/-- The value of `sizeof(struct udphdr)`. -/
def sizeof_udphdr : Nat := 8
/-- The value of `sizeof(struct tcphdr)`. -/
def sizeof_tcphdr : Nat := 20

/-- The modulus of `__u64` arithmetic. -/
def U64_MOD : Nat := 18446744073709551616

/-- Byte swap of a 16-bit value (`___constant_swab16`). -/
def swab16 (x : Nat) : Nat := (x % 256) * 256 + (x / 256) % 256

/-- Byte swap of a 32-bit value (`___constant_swab32`). -/
def swab32 (x : Nat) : Nat :=
  (x % 256) * 16777216 + (x / 256 % 256) * 65536 + (x / 65536 % 256) * 256 + (x / 16777216) % 256

/-- Source line 9: `#define htons(x) ((__be16)___constant_swab16((x)))`. -/
def htons (x : Nat) : Nat := swab16 x

/-- Source line 10: `#define htonl(x) ((__be32)___constant_swab32((x)))`. -/
def htonl (x : Nat) : Nat := swab32 x

/-! ## Packet memory -/

/-- The bytes between `ctx->data` and `ctx->data_end`. -/
abbrev Packet := List (Fin 256)

/-- Load of one byte at offset `off`; `none` outside the packet. -/
def load8 (pkt : Packet) (off : Nat) : Option Nat :=
  match pkt[off]? with
  | some b => some b.val
  | none => none

/-- Little-endian load of a 16-bit field at offset `off`. -/
def load16 (pkt : Packet) (off : Nat) : Option Nat := do
  let b0 ← load8 pkt off
  let b1 ← load8 pkt (off + 1)
  pure (b0 + 256 * b1)

/-- Little-endian load of a 32-bit field at offset `off`. -/
def load32 (pkt : Packet) (off : Nat) : Option Nat := do
  let b0 ← load8 pkt off
  let b1 ← load8 pkt (off + 1)
  let b2 ← load8 pkt (off + 2)
  let b3 ← load8 pkt (off + 3)
  pure (b0 + 256 * b1 + 65536 * b2 + 16777216 * b3)

/-- Field `eth->h_proto`: offset 12 of the Ethernet header. -/
def eth_h_proto (pkt : Packet) : Option Nat := load16 pkt 12

/-- Field `ip->ihl`: the low four bits of the first byte of the IPv4 header
(little-endian bit-field order). -/
def ip_ihl (pkt : Packet) : Option Nat := do
  let b ← load8 pkt sizeof_ethhdr
  pure (b % 16)

/-- Field `ip->protocol`: offset 9 of the IPv4 header. -/
def ip_protocol (pkt : Packet) : Option Nat := load8 pkt (sizeof_ethhdr + 9)

/-- Field `ip->daddr`: offset 16 of the IPv4 header. -/
def ip_daddr (pkt : Packet) : Option Nat := load32 pkt (sizeof_ethhdr + 16)

/-- Field `udp->dest`: offset 2 of the UDP header that starts at `l4`. -/
def udp_dest (pkt : Packet) (l4 : Nat) : Option Nat := load16 pkt (l4 + 2)

/-- Field `tcp->dest`: offset 2 of the TCP header that starts at `l4`. -/
def tcp_dest (pkt : Packet) (l4 : Nat) : Option Nat := load16 pkt (l4 + 2)

/-- Bit-field `tcp->syn`: bit 1 of byte 13 of the TCP header. -/
def tcp_syn (pkt : Packet) (l4 : Nat) : Option Nat := do
  let b ← load8 pkt (l4 + 13)
  pure (b / 2 % 2)

/-- Bit-field `tcp->ack`: bit 4 of byte 13 of the TCP header. -/
def tcp_ack (pkt : Packet) (l4 : Nat) : Option Nat := do
  let b ← load8 pkt (l4 + 13)
  pure (b / 16 % 2)

/-! ## Maps -/

/-- The slots, on one CPU, of the two `BPF_MAP_TYPE_PERCPU_ARRAY` maps (source lines 19-33):
`rate_limit_map` has `max_entries` 1 and `packet_count_map` has `max_entries` 2
(slot 0 dropped, slot 1 passed). -/
structure Maps where
  rate_limit_map : List Nat
  packet_count_map : List Nat
  deriving DecidableEq

/-- Helper `bpf_map_lookup_elem` on an array map: the slot of `key`, or failure (`NULL`) when the
key is not below the number of slots.  The returned pointer is represented by the value it
points to; the slot itself is named by `key`. -/
def bpf_map_lookup_elem (m : List Nat) (key : Nat) : Option Nat := m[key]?

/-- Helper `bpf_map_update_elem` with `BPF_ANY` on an array map: overwrite the slot of `key`. -/
def bpf_map_update_elem (m : List Nat) (key value : Nat) : List Nat := m.set key value

/-- Builtin `__sync_fetch_and_add` on the `__u64` slot `key`: add `v` modulo `2^64`. -/
def sync_fetch_and_add (m : List Nat) (key v : Nat) : List Nat :=
  match m[key]? with
  | some old => m.set key ((old + v) % U64_MOD)
  | none => m

/-- Subtraction of two `__u64` values, wrapping modulo `2^64`. -/
def u64_sub (a b : Nat) : Nat := (((a : Int) - (b : Int)) % (U64_MOD : Int)).toNat

/-- Source line 41. -/
def rate_limit_key : Nat := 0
/-- Source line 43. -/
def key_dropped : Nat := 0
/-- Source line 44. -/
def key_passed : Nat := 1

/-! ## The program -/

/-- How control leaves source lines 46-112 of `fivem_xdp`: by a `return`, or by falling through
to the rate limiter at line 114. -/
inductive Flow
  | ret (v : xdp_action)
  | rate_limit
  deriving DecidableEq

/-- Source lines 68-86, the UDP branch (entered with `ihl` already loaded). -/
def fivem_xdp_udp (pkt : Packet) (ihl : Nat) : Option Flow :=
  let udp := sizeof_ethhdr + ihl * 4
  if udp + sizeof_udphdr > pkt.length then pure (Flow.ret XDP_ABORTED)
  else do
    let daddr ← ip_daddr pkt
    if daddr ≠ htonl FIVEM_SERVER_IP then pure (Flow.ret XDP_PASS)
    else do
      let dest ← udp_dest pkt udp
      if dest ≠ htons FIVEM_SERVER_PORT ∧ dest ≠ htons MUMBLE_SERVER_PORT then
        pure (Flow.ret XDP_PASS)
      else pure Flow.rate_limit

/-- Source lines 88-112, the TCP branch (entered with `ihl` already loaded). -/
def fivem_xdp_tcp (pkt : Packet) (ihl : Nat) : Option Flow :=
  let tcp := sizeof_ethhdr + ihl * 4
  if tcp + sizeof_tcphdr > pkt.length then pure (Flow.ret XDP_ABORTED)
  else do
    let syn ← tcp_syn pkt tcp
    let synOnly ← (if syn = 1 then do
                     let ack ← tcp_ack pkt tcp
                     pure (decide (ack = 0))
                   else pure false)
    if synOnly then pure (Flow.ret XDP_DROP)
    else do
      let daddr ← ip_daddr pkt
      if daddr ≠ htonl FIVEM_SERVER_IP then pure (Flow.ret XDP_PASS)
      else do
        let dest ← tcp_dest pkt tcp
        if dest ≠ htons FIVEM_SERVER_PORT ∧ dest ≠ htons MUMBLE_SERVER_PORT ∧
            dest ≠ htons HTTP_SERVER_PORT ∧ dest ≠ htons HTTPS_SERVER_PORT then
          pure (Flow.ret XDP_PASS)
        else pure Flow.rate_limit

/-- Source lines 46-112: counter lookups, header parsing, flood heuristic and destination
filter.  The result is `none` when a load falls outside the packet. -/
def fivem_xdp_headers (maps : Maps) (pkt : Packet) : Option Flow :=
  match bpf_map_lookup_elem maps.packet_count_map key_dropped,
        bpf_map_lookup_elem maps.packet_count_map key_passed with
  | some _, some _ =>
    if sizeof_ethhdr > pkt.length then pure (Flow.ret XDP_ABORTED)
    else do
      let h_proto ← eth_h_proto pkt
      if h_proto ≠ htons ETH_P_IP then pure (Flow.ret XDP_PASS)
      else if sizeof_ethhdr + sizeof_iphdr > pkt.length then pure (Flow.ret XDP_ABORTED)
      else do
        let ihl ← ip_ihl pkt
        if ihl < 5 then pure (Flow.ret XDP_ABORTED)
        else do
          let protocol ← ip_protocol pkt
          if protocol = IPPROTO_UDP then fivem_xdp_udp pkt ihl
          else if protocol = IPPROTO_TCP then fivem_xdp_tcp pkt ihl
          else pure Flow.rate_limit
  | _, _ => pure (Flow.ret XDP_ABORTED)

/-- Source lines 114-136: the rate limiter.  `ktime` is the value returned by
`bpf_ktime_get_ns()`, a `__u64`. -/
def fivem_xdp_rate_limit (maps : Maps) (ktime : Nat) : xdp_action × Maps :=
  match bpf_map_lookup_elem maps.rate_limit_map rate_limit_key with
  | none => (XDP_PASS, maps)
  | some last =>
    let now := ktime
    if u64_sub now last < 1000000000 / RATE_LIMIT then
      (XDP_DROP, Maps.mk maps.rate_limit_map
        (sync_fetch_and_add maps.packet_count_map key_dropped 1))
    else
      (XDP_PASS, Maps.mk (bpf_map_update_elem maps.rate_limit_map rate_limit_key now)
        (sync_fetch_and_add maps.packet_count_map key_passed 1))

/-- The program `fivem_xdp` (source lines 37-137) on one CPU: from the maps, the clock reading
and the packet to the verdict and the maps afterwards; `none` is a load outside the packet.
Nothing is written before line 127, so every `return` of lines 46-112 leaves the maps as they
were. -/
def fivem_xdp (maps : Maps) (ktime : Nat) (pkt : Packet) : Option (xdp_action × Maps) :=
  match fivem_xdp_headers maps pkt with
  | none => none
  | some (Flow.ret v) => some (v, maps)
  | some Flow.rate_limit => some (fivem_xdp_rate_limit maps ktime)

/-! ## Vocabulary of the statements -/

/-- Byte `i` of the packet as a number (0 when `i` is outside the packet). -/
def byteAt (pkt : Packet) (i : Nat) : Nat := (pkt.getD i 0).val

/-- The EtherType: bytes 12-13, big-endian. -/
def etherType (pkt : Packet) : Nat := 256 * byteAt pkt 12 + byteAt pkt 13

/-- The IPv4 header length in 32-bit words: the low nibble of byte 14. -/
def ihlOf (pkt : Packet) : Nat := byteAt pkt 14 % 16

/-- The IPv4 protocol byte, byte 23. -/
def protocolOf (pkt : Packet) : Nat := byteAt pkt 23

/-- The IPv4 destination address, bytes 30-33 in wire order. -/
def dstAddr (pkt : Packet) : List Nat :=
  [byteAt pkt 30, byteAt pkt 31, byteAt pkt 32, byteAt pkt 33]

/-- Offset of the transport header: `14 + 4 * ihl`. -/
def l4Offset (pkt : Packet) : Nat := 14 + 4 * ihlOf pkt

/-- The destination port: the two bytes at `14 + 4 * ihl + 2`, big-endian. -/
def dstPort (pkt : Packet) : Nat :=
  256 * byteAt pkt (l4Offset pkt + 2) + byteAt pkt (l4Offset pkt + 3)

/-- The TCP SYN flag: mask `0x02` of the flags byte at `14 + 4 * ihl + 13`. -/
def synFlag (pkt : Packet) : Bool := byteAt pkt (l4Offset pkt + 13) / 2 % 2 = 1

/-- The TCP ACK flag: mask `0x10` of the flags byte at `14 + 4 * ihl + 13`. -/
def ackFlag (pkt : Packet) : Bool := byteAt pkt (l4Offset pkt + 13) / 16 % 2 = 1

/-- Both counter lookups of source lines 46-47 succeed. -/
def countersAvailable (maps : Maps) : Prop :=
  (bpf_map_lookup_elem maps.packet_count_map key_dropped).isSome = true ∧
  (bpf_map_lookup_elem maps.packet_count_map key_passed).isSome = true

instance countersAvailable_decidable (maps : Maps) : Decidable (countersAvailable maps) := by
  unfold countersAvailable; infer_instance

/-- The invocation falls through to the rate limiter at source line 114. -/
def reachesRateLimiter (maps : Maps) (pkt : Packet) : Prop :=
  fivem_xdp_headers maps pkt = some Flow.rate_limit

instance reachesRateLimiter_decidable (maps : Maps) (pkt : Packet) :
    Decidable (reachesRateLimiter maps pkt) := by
  unfold reachesRateLimiter; infer_instance

/-! ## The decision of lines 46-112 in terms of the packet's fields -/

/-- The UDP branch as a decision on the packet's fields. -/
def classifyUdp (pkt : Packet) : Flow :=
  if pkt.length < l4Offset pkt + 8 then Flow.ret XDP_ABORTED
  else if dstAddr pkt = [127, 0, 0, 1] ∧ (dstPort pkt = 30120 ∨ dstPort pkt = 30121) then
    Flow.rate_limit
  else Flow.ret XDP_PASS

/-- The TCP branch as a decision on the packet's fields. -/
def classifyTcp (pkt : Packet) : Flow :=
  if pkt.length < l4Offset pkt + 20 then Flow.ret XDP_ABORTED
  else if synFlag pkt = true ∧ ackFlag pkt = false then Flow.ret XDP_DROP
  else if dstAddr pkt = [127, 0, 0, 1] ∧
      (dstPort pkt = 30120 ∨ dstPort pkt = 30121 ∨ dstPort pkt = 80 ∨ dstPort pkt = 443) then
    Flow.rate_limit
  else Flow.ret XDP_PASS

/-- Lines 52-112 as a decision on the packet's fields. -/
def classify (pkt : Packet) : Flow :=
  if pkt.length < 14 then Flow.ret XDP_ABORTED
  else if etherType pkt ≠ 0x0800 then Flow.ret XDP_PASS
  else if pkt.length < 34 ∨ ihlOf pkt < 5 then Flow.ret XDP_ABORTED
  else if protocolOf pkt = 17 then classifyUdp pkt
  else if protocolOf pkt = 6 then classifyTcp pkt
  else Flow.rate_limit

/-! ## Concrete packets used as test inputs -/

/-- TCP SYN+ACK from 10.0.0.1 to 127.0.0.1 port 30120, no IP options (54 bytes). -/
def tcpSynAckGame : Packet :=
  [0, 0, 0, 0, 0, 0, 0, 0, 0, 0, 0, 0, 8, 0, 69, 0, 0, 40, 0, 0, 0, 0, 64, 6, 0, 0, 10, 0, 0, 1,
   127, 0, 0, 1, 48, 57, 117, 168, 0, 0, 0, 0, 0, 0, 0, 0, 80, 18, 0, 0, 0, 0, 0, 0]

/-- TCP SYN (no ACK) to 127.0.0.1 port 9999. -/
def tcpSynPort9999 : Packet :=
  [0, 0, 0, 0, 0, 0, 0, 0, 0, 0, 0, 0, 8, 0, 69, 0, 0, 40, 0, 0, 0, 0, 64, 6, 0, 0, 10, 0, 0, 1,
   127, 0, 0, 1, 48, 57, 39, 15, 0, 0, 0, 0, 0, 0, 0, 0, 80, 2, 0, 0, 0, 0, 0, 0]

/-- TCP SYN (no ACK) to 10.0.0.2 port 9999. -/
def tcpSynOtherHost : Packet :=
  [0, 0, 0, 0, 0, 0, 0, 0, 0, 0, 0, 0, 8, 0, 69, 0, 0, 40, 0, 0, 0, 0, 64, 6, 0, 0, 10, 0, 0, 1,
   10, 0, 0, 2, 48, 57, 39, 15, 0, 0, 0, 0, 0, 0, 0, 0, 80, 2, 0, 0, 0, 0, 0, 0]

/-- TCP ACK to 10.0.0.2 port 30120. -/
def tcpAckOtherHost : Packet :=
  [0, 0, 0, 0, 0, 0, 0, 0, 0, 0, 0, 0, 8, 0, 69, 0, 0, 40, 0, 0, 0, 0, 64, 6, 0, 0, 10, 0, 0, 1,
   10, 0, 0, 2, 48, 57, 117, 168, 0, 0, 0, 0, 0, 0, 0, 0, 80, 16, 0, 0, 0, 0, 0, 0]

/-- UDP datagram to 127.0.0.1 port 80. -/
def udpPort80 : Packet :=
  [0, 0, 0, 0, 0, 0, 0, 0, 0, 0, 0, 0, 8, 0, 69, 0, 0, 40, 0, 0, 0, 0, 64, 17, 0, 0, 10, 0, 0,
   1, 127, 0, 0, 1, 48, 57, 0, 80, 0, 8, 0, 0]

/-- UDP datagram to 127.0.0.1 port 30120. -/
def udpGame : Packet :=
  [0, 0, 0, 0, 0, 0, 0, 0, 0, 0, 0, 0, 8, 0, 69, 0, 0, 40, 0, 0, 0, 0, 64, 17, 0, 0, 10, 0, 0,
   1, 127, 0, 0, 1, 48, 57, 117, 168, 0, 8, 0, 0]

/-- IPv4 packet with protocol 1 (ICMP) to 10.0.0.2, cut after the IPv4 header (34 bytes). -/
def icmpOtherHost : Packet :=
  [0, 0, 0, 0, 0, 0, 0, 0, 0, 0, 0, 0, 8, 0, 69, 0, 0, 40, 0, 0, 0, 0, 64, 1, 0, 0, 10, 0, 0, 1,
   10, 0, 0, 2]

/-- Ethernet frame with EtherType 0x0806 (ARP), 42 bytes. -/
def arpFrame : Packet :=
  [0, 0, 0, 0, 0, 0, 0, 0, 0, 0, 0, 0, 8, 6, 0, 0, 0, 0, 0, 0, 0, 0, 0, 0, 0, 0, 0, 0, 0, 0, 0,
   0, 0, 0, 0, 0, 0, 0, 0, 0, 0, 0]

/-- UDP datagram to 127.0.0.1 port 30121 behind a 24-byte IPv4 header (ihl 6), cut one byte
before the end of the UDP header (45 bytes). -/
def udpOptionsTruncated : Packet :=
  [0, 0, 0, 0, 0, 0, 0, 0, 0, 0, 0, 0, 8, 0, 70, 0, 0, 40, 0, 0, 0, 0, 64, 17, 0, 0, 10, 0, 0,
   1, 127, 0, 0, 1, 0, 0, 0, 0, 48, 57, 117, 169, 0, 8, 0]

/-- The packet `tcpSynAckGame` with other MAC addresses, IP version nibble, TOS, TTL, source
address, source port, sequence numbers, data offset, window and with PSH and FIN also set; the
length and the fields read by the program are the same. -/
def tcpSynAckGameOtherSource : Packet :=
  [17, 34, 51, 68, 85, 102, 17, 34, 51, 68, 85, 102, 8, 0, 101, 16, 0, 40, 0, 0, 0, 0, 17, 6, 0,
   0, 192, 168, 7, 9, 127, 0, 0, 1, 195, 80, 117, 168, 1, 2, 3, 4, 5, 6, 7, 8, 96, 27, 9, 9, 9,
   9, 9, 9]

/-! ## Sequences of invocations -/

/-- A sequence of invocations on one shard: each input is the clock reading and the packet of
one invocation, the maps being threaded from one invocation to the next. -/
def run : Maps → List (Nat × Packet) → Option Maps
  | maps, [] => some maps
  | maps, (ktime, pkt) :: rest =>
    match fivem_xdp maps ktime pkt with
    | none => none
    | some (_, maps') => run maps' rest

/-- The clock readings, in order, of the invocations of a sequence that the rate limiter
passed: verdict `XDP_PASS` with the passed counter incremented. -/
def passTimes : Maps → List (Nat × Packet) → List Nat
  | _, [] => []
  | maps, (ktime, pkt) :: rest =>
    match fivem_xdp maps ktime pkt with
    | none => []
    | some (v, maps') =>
      if v = XDP_PASS ∧ bpf_map_lookup_elem maps'.packet_count_map key_passed
          ≠ bpf_map_lookup_elem maps.packet_count_map key_passed then
        ktime :: passTimes maps' rest
      else passTimes maps' rest

/-- The number of rate-limiter passes of a sequence whose clock reading lies in the one-second
window starting at `t`. -/
def passesInWindow (maps : Maps) (inputs : List (Nat × Packet)) (t : Nat) : Nat :=
  ((passTimes maps inputs).filter (fun x => decide (t ≤ x ∧ x < t + 1000000000))).length

/-- A burst of `n` UDP datagrams to 127.0.0.1 port 30120 at the clock readings `76923 * k`,
`76923 * (k + 1)`, ... -/
def burstFrom : Nat → Nat → List (Nat × Packet)
  | _, 0 => []
  | k, n + 1 => (76923 * k, udpGame) :: burstFrom (k + 1) n

/-! ## Lemmas -/

theorem byteAt_lt (pkt : Packet) (i : Nat) : byteAt pkt i < 256 := (pkt.getD i 0).isLt

theorem load8_eq (pkt : Packet) (i : Nat) (h : i < pkt.length) :
    load8 pkt i = some (byteAt pkt i) := by
  simp [load8, byteAt, List.getD, List.getElem?_eq_getElem h]

theorem htons_ETH_P_IP : htons ETH_P_IP = 8 := by decide
theorem htonl_FIVEM_SERVER_IP : htonl FIVEM_SERVER_IP = 16777343 := by decide
theorem htons_FIVEM_SERVER_PORT : htons FIVEM_SERVER_PORT = 43125 := by decide
theorem htons_MUMBLE_SERVER_PORT : htons MUMBLE_SERVER_PORT = 43381 := by decide
theorem htons_HTTP_SERVER_PORT : htons HTTP_SERVER_PORT = 20480 := by decide
theorem htons_HTTPS_SERVER_PORT : htons HTTPS_SERVER_PORT = 47873 := by decide

theorem load16_eq (pkt : Packet) (i : Nat) (h : i + 1 < pkt.length) :
    load16 pkt i = some (byteAt pkt i + 256 * byteAt pkt (i + 1)) := by
  simp [load16, load8_eq pkt i (by omega), load8_eq pkt (i + 1) h]

theorem load32_eq (pkt : Packet) (i : Nat) (h : i + 3 < pkt.length) :
    load32 pkt i = some (byteAt pkt i + 256 * byteAt pkt (i + 1) + 65536 * byteAt pkt (i + 2)
      + 16777216 * byteAt pkt (i + 3)) := by
  simp [load32, load8_eq pkt i (by omega), load8_eq pkt (i + 1) (by omega),
    load8_eq pkt (i + 2) (by omega), load8_eq pkt (i + 3) h]

theorem daddr_test (pkt : Packet) :
    (byteAt pkt 30 + 256 * byteAt pkt 31 + 65536 * byteAt pkt 32 + 16777216 * byteAt pkt 33
      = 16777343) ↔ dstAddr pkt = [127, 0, 0, 1] := by
  have h0 := byteAt_lt pkt 30
  have h1 := byteAt_lt pkt 31
  have h2 := byteAt_lt pkt 32
  have h3 := byteAt_lt pkt 33
  simp only [dstAddr, List.cons.injEq, and_true]
  omega

theorem fivem_xdp_udp_eq (pkt : Packet) (hlen : 34 ≤ pkt.length) :
    fivem_xdp_udp pkt (ihlOf pkt) = some (classifyUdp pkt) := by
  have hb2 := byteAt_lt pkt (l4Offset pkt + 2)
  have hb3 := byteAt_lt pkt (l4Offset pkt + 3)
  have hoff : sizeof_ethhdr + ihlOf pkt * 4 = l4Offset pkt := by
    simp only [sizeof_ethhdr, l4Offset]; omega
  unfold fivem_xdp_udp classifyUdp
  simp only [hoff, sizeof_udphdr]
  by_cases hl : pkt.length < l4Offset pkt + 8
  · simp [hl]
  · have hd : ip_daddr pkt = some (byteAt pkt 30 + 256 * byteAt pkt 31 + 65536 * byteAt pkt 32
        + 16777216 * byteAt pkt 33) := by
      simpa [ip_daddr, sizeof_ethhdr] using load32_eq pkt 30 (by omega)
    have hp : udp_dest pkt (l4Offset pkt) = some (byteAt pkt (l4Offset pkt + 2)
        + 256 * byteAt pkt (l4Offset pkt + 3)) := by
      simpa [udp_dest] using load16_eq pkt (l4Offset pkt + 2) (by omega)
    have hl2 : ¬ (l4Offset pkt + 8 > pkt.length) := by omega
    simp only [hl, hl2, if_false, hd, hp, Option.bind_eq_bind, Option.some_bind, Option.pure_def,
      htonl_FIVEM_SERVER_IP, htons_FIVEM_SERVER_PORT, htons_MUMBLE_SERVER_PORT, ne_eq,
      daddr_test, dstPort]
    by_cases ha : dstAddr pkt = [127, 0, 0, 1]
    · simp only [ha, not_true_eq_false, if_false, true_and]
      by_cases hq : byteAt pkt (l4Offset pkt + 2) + 256 * byteAt pkt (l4Offset pkt + 3) = 43125
      · have : 256 * byteAt pkt (l4Offset pkt + 2) + byteAt pkt (l4Offset pkt + 3) = 30120 := by
          omega
        simp [hq, this]
      · by_cases hq2 : byteAt pkt (l4Offset pkt + 2) + 256 * byteAt pkt (l4Offset pkt + 3) = 43381
        · have : 256 * byteAt pkt (l4Offset pkt + 2) + byteAt pkt (l4Offset pkt + 3) = 30121 := by
            omega
          simp [hq2, this]
        · have h1 : ¬ (256 * byteAt pkt (l4Offset pkt + 2) + byteAt pkt (l4Offset pkt + 3)
              = 30120) := by omega
          have h2 : ¬ (256 * byteAt pkt (l4Offset pkt + 2) + byteAt pkt (l4Offset pkt + 3)
              = 30121) := by omega
          simp [hq, hq2, h1, h2]
    · simp [ha]

theorem port_test (a b : Nat) (ha : a < 256) (hb : b < 256) :
    (a + 256 * b = 43125 ↔ 256 * a + b = 30120) ∧
    (a + 256 * b = 43381 ↔ 256 * a + b = 30121) ∧
    (a + 256 * b = 20480 ↔ 256 * a + b = 80) ∧
    (a + 256 * b = 47873 ↔ 256 * a + b = 443) := by
  omega

theorem tcp_decide (s a : Nat) (ha : a < 2) (D P1 P2 P3 P4 : Prop) [Decidable D] [Decidable P1]
    [Decidable P2] [Decidable P3] [Decidable P4] :
    ((if s = 1 then some (decide (a = 0)) else some false).bind fun synOnly =>
      if synOnly = true then some (Flow.ret XDP_DROP)
      else if ¬ D then some (Flow.ret XDP_PASS)
      else if ¬ P1 ∧ ¬ P2 ∧ ¬ P3 ∧ ¬ P4 then some (Flow.ret XDP_PASS)
      else some Flow.rate_limit) =
    some (if decide (s = 1) = true ∧ decide (a = 1) = false then Flow.ret XDP_DROP
      else if D ∧ (P1 ∨ P2 ∨ P3 ∨ P4) then Flow.rate_limit
      else Flow.ret XDP_PASS) := by
  have ha1 : a = 1 ↔ ¬ a = 0 := by omega
  by_cases hs : s = 1 <;> by_cases h0 : a = 0 <;> by_cases hD : D <;> by_cases h1 : P1 <;>
    by_cases h2 : P2 <;> by_cases h3 : P3 <;> by_cases h4 : P4 <;> simp [*]

theorem fivem_xdp_tcp_eq (pkt : Packet) (hlen : 34 ≤ pkt.length) :
    fivem_xdp_tcp pkt (ihlOf pkt) = some (classifyTcp pkt) := by
  have hoff : sizeof_ethhdr + ihlOf pkt * 4 = l4Offset pkt := by
    simp only [sizeof_ethhdr, l4Offset]; omega
  obtain ⟨p1, p2, p3, p4⟩ := port_test _ _ (byteAt_lt pkt (l4Offset pkt + 2))
    (byteAt_lt pkt (l4Offset pkt + 3))
  unfold fivem_xdp_tcp classifyTcp
  simp only [hoff, sizeof_tcphdr]
  by_cases hl : pkt.length < l4Offset pkt + 20
  · simp [hl]
  · have hd : ip_daddr pkt = some (byteAt pkt 30 + 256 * byteAt pkt 31 + 65536 * byteAt pkt 32
        + 16777216 * byteAt pkt 33) := by
      simpa [ip_daddr, sizeof_ethhdr] using load32_eq pkt 30 (by omega)
    have hp : tcp_dest pkt (l4Offset pkt) = some (byteAt pkt (l4Offset pkt + 2)
        + 256 * byteAt pkt (l4Offset pkt + 3)) := by
      simpa [tcp_dest] using load16_eq pkt (l4Offset pkt + 2) (by omega)
    have hs : tcp_syn pkt (l4Offset pkt) = some (byteAt pkt (l4Offset pkt + 13) / 2 % 2) := by
      simp [tcp_syn, load8_eq pkt (l4Offset pkt + 13) (by omega)]
    have ha : tcp_ack pkt (l4Offset pkt) = some (byteAt pkt (l4Offset pkt + 13) / 16 % 2) := by
      simp [tcp_ack, load8_eq pkt (l4Offset pkt + 13) (by omega)]
    have hl2 : ¬ (l4Offset pkt + 20 > pkt.length) := by omega
    simp only [hl, hl2, if_false, hd, hp, hs, ha, Option.bind_eq_bind, Option.some_bind,
      Option.pure_def, htonl_FIVEM_SERVER_IP, htons_FIVEM_SERVER_PORT, htons_MUMBLE_SERVER_PORT,
      htons_HTTP_SERVER_PORT, htons_HTTPS_SERVER_PORT, ne_eq, daddr_test, dstPort, synFlag,
      ackFlag, p1, p2, p3, p4]
    exact tcp_decide _ _ (by omega) _ _ _ _ _

theorem ether_test (pkt : Packet) :
    (byteAt pkt 12 + 256 * byteAt pkt 13 = 8) ↔ etherType pkt = 0x0800 := by
  have h0 := byteAt_lt pkt 12
  have h1 := byteAt_lt pkt 13
  simp only [etherType]
  omega

/-- With both counter slots present, lines 46-112 never read outside the packet and decide as
`classify` says. -/
theorem fivem_xdp_headers_eq (maps : Maps) (pkt : Packet) (hc : countersAvailable maps) :
    fivem_xdp_headers maps pkt = some (classify pkt) := by
  obtain ⟨hd, hp⟩ := hc
  obtain ⟨d, hd⟩ := Option.isSome_iff_exists.mp hd
  obtain ⟨p, hp⟩ := Option.isSome_iff_exists.mp hp
  unfold fivem_xdp_headers classify
  simp only [hd, hp, sizeof_ethhdr, sizeof_iphdr]
  by_cases h14 : pkt.length < 14
  · have : 14 > pkt.length := h14
    simp [h14, this]
  · have h14b : ¬ (14 > pkt.length) := by omega
    have he : eth_h_proto pkt = some (byteAt pkt 12 + 256 * byteAt pkt 13) := by
      simpa [eth_h_proto] using load16_eq pkt 12 (by omega)
    simp only [h14, h14b, if_false, he, Option.bind_eq_bind, Option.some_bind, Option.pure_def,
      htons_ETH_P_IP, ne_eq, ether_test]
    by_cases het : etherType pkt = 0x0800
    · simp only [het, not_true_eq_false, if_false]
      by_cases h34 : pkt.length < 34
      · have : 14 + 20 > pkt.length := by omega
        simp [h34, this]
      · have h34b : ¬ (14 + 20 > pkt.length) := by omega
        have hi : ip_ihl pkt = some (ihlOf pkt) := by
          simp [ip_ihl, ihlOf, sizeof_ethhdr, load8_eq pkt 14 (by omega)]
        have hpr : ip_protocol pkt = some (protocolOf pkt) := by
          simp [ip_protocol, protocolOf, sizeof_ethhdr, load8_eq pkt 23 (by omega)]
        simp only [h34, h34b, if_false, hi, hpr, Option.some_bind, false_or, IPPROTO_UDP,
          IPPROTO_TCP]
        by_cases h5 : ihlOf pkt < 5
        · simp [h5]
        · simp only [h5, if_false]
          rw [fivem_xdp_udp_eq pkt (by omega), fivem_xdp_tcp_eq pkt (by omega)]
          by_cases hu : protocolOf pkt = 17
          · simp [hu]
          · by_cases ht : protocolOf pkt = 6 <;> simp [hu, ht]
    · simp [het]

theorem fivem_xdp_eq (maps : Maps) (ktime : Nat) (pkt : Packet) (hc : countersAvailable maps) :
    fivem_xdp maps ktime pkt =
      some (match classify pkt with
        | Flow.ret v => (v, maps)
        | Flow.rate_limit => fivem_xdp_rate_limit maps ktime) := by
  unfold fivem_xdp
  rw [fivem_xdp_headers_eq maps pkt hc]
  cases classify pkt <;> rfl

theorem countersAvailable_of_reaches (maps : Maps) (pkt : Packet)
    (h : reachesRateLimiter maps pkt) : countersAvailable maps := by
  unfold reachesRateLimiter fivem_xdp_headers at h
  unfold countersAvailable
  cases hd : bpf_map_lookup_elem maps.packet_count_map key_dropped <;>
    cases hp : bpf_map_lookup_elem maps.packet_count_map key_passed <;>
    simp [hd, hp] at h ⊢

theorem fivem_xdp_of_reaches (maps : Maps) (ktime : Nat) (pkt : Packet)
    (h : reachesRateLimiter maps pkt) :
    fivem_xdp maps ktime pkt = some (fivem_xdp_rate_limit maps ktime) := by
  unfold reachesRateLimiter at h
  simp [fivem_xdp, h]

theorem u64_sub_lt_iff (a b n : Nat) :
    u64_sub a b < n ↔ ((a : Int) - (b : Int)) % 18446744073709551616 < (n : Int) := by
  unfold u64_sub U64_MOD
  have h : (0 : Int) ≤ ((a : Int) - (b : Int)) % 18446744073709551616 :=
    Int.emod_nonneg _ (by decide)
  omega

theorem min_interval : 1000000000 / RATE_LIMIT = 76923 := by decide

theorem lookup_fetch_add_same (m : List Nat) (k v old : Nat)
    (h : bpf_map_lookup_elem m k = some old) :
    bpf_map_lookup_elem (sync_fetch_and_add m k v) k = some ((old + v) % U64_MOD) := by
  unfold bpf_map_lookup_elem at h
  have hk : k < m.length := by
    by_contra hn
    rw [List.getElem?_eq_none (by omega)] at h
    cases h
  simp [bpf_map_lookup_elem, sync_fetch_and_add, h, List.getElem?_set, hk]

theorem lookup_fetch_add_other (m : List Nat) (k j v : Nat) (hkj : k ≠ j) :
    bpf_map_lookup_elem (sync_fetch_and_add m k v) j = bpf_map_lookup_elem m j := by
  unfold bpf_map_lookup_elem sync_fetch_and_add
  cases h : m[k]? <;> simp [List.getElem?_set, hkj]

theorem lookup_update_same (m : List Nat) (k v old : Nat)
    (h : bpf_map_lookup_elem m k = some old) :
    bpf_map_lookup_elem (bpf_map_update_elem m k v) k = some v := by
  unfold bpf_map_lookup_elem at h
  have hk : k < m.length := by
    by_contra hn
    rw [List.getElem?_eq_none (by omega)] at h
    cases h
  simp [bpf_map_lookup_elem, bpf_map_update_elem, List.getElem?_set, hk]

/-- Claim C1 (TCP flood heuristic): with both counter slots available, for every packet whose
EtherType is 0x0800, whose IPv4 header is complete (length at least 34) with ihl at least 5,
whose protocol byte is 6 and whose 20-byte TCP header at offset `14 + 4 * ihl` lies inside the
packet, if SYN is set and ACK is clear then `fivem_xdp` returns `XDP_DROP`, whatever the
destination address, the destination port, the clock reading and the maps' contents. -/
theorem tcp_syn_without_ack_dropped (maps : Maps) (ktime : Nat) (pkt : Packet)
    (hc : countersAvailable maps) (het : etherType pkt = 0x0800) (hlen : 34 ≤ pkt.length)
    (hihl : 5 ≤ ihlOf pkt) (hproto : protocolOf pkt = 6)
    (htcp : 14 + 4 * ihlOf pkt + 20 ≤ pkt.length)
    (hsyn : synFlag pkt = true) (hack : ackFlag pkt = false) :
    (fivem_xdp maps ktime pkt).map Prod.fst = some XDP_DROP := by
  have h14 : ¬ pkt.length < 14 := by omega
  have h34 : ¬ (pkt.length < 34 ∨ ihlOf pkt < 5) := by omega
  have hl : ¬ pkt.length < l4Offset pkt + 20 := by unfold l4Offset; omega
  rw [fivem_xdp_eq maps ktime pkt hc]
  simp [classify, classifyTcp, h14, het, h34, hproto, hl, hsyn, hack]

theorem tcp_syn_without_ack_dropped_witness :
    countersAvailable ⟨[0], [0, 0]⟩ ∧ dstPort tcpSynPort9999 = 9999 ∧
    (fivem_xdp ⟨[0], [0, 0]⟩ 0 tcpSynPort9999).map Prod.fst = some XDP_DROP :=
  ⟨by decide, by decide,
    tcp_syn_without_ack_dropped ⟨[0], [0, 0]⟩ 0 tcpSynPort9999 (by decide) (by decide)
      (by decide) (by decide) (by decide) (by decide) (by decide) (by decide)⟩

/-- Claim C2 (rate limiter step): for every invocation that reaches the rate limiter with the
rate-limit slot available and holding `last`, the minimum interval `1000000000 / RATE_LIMIT`
is 76923; if `(now - last) mod 2^64` is below it the verdict is `XDP_DROP` and the stored
timestamp is still `last`; otherwise (equality included) the verdict is `XDP_PASS` and the
stored timestamp is `now`. -/
theorem rate_limiter_step (maps : Maps) (ktime : Nat) (pkt : Packet) (last : Nat)
    (hreach : reachesRateLimiter maps pkt)
    (hlast : bpf_map_lookup_elem maps.rate_limit_map rate_limit_key = some last) :
    1000000000 / RATE_LIMIT = 76923 ∧
    (((ktime : Int) - (last : Int)) % 18446744073709551616 < 76923 →
      ∃ maps', fivem_xdp maps ktime pkt = some (XDP_DROP, maps') ∧
        bpf_map_lookup_elem maps'.rate_limit_map rate_limit_key = some last) ∧
    (¬ ((ktime : Int) - (last : Int)) % 18446744073709551616 < 76923 →
      ∃ maps', fivem_xdp maps ktime pkt = some (XDP_PASS, maps') ∧
        bpf_map_lookup_elem maps'.rate_limit_map rate_limit_key = some ktime) := by
  refine ⟨min_interval, ?_, ?_⟩
  · intro h
    have h2 : u64_sub ktime last < 76923 := (u64_sub_lt_iff ktime last 76923).mpr h
    refine ⟨Maps.mk maps.rate_limit_map
      (sync_fetch_and_add maps.packet_count_map key_dropped 1), ?_, hlast⟩
    rw [fivem_xdp_of_reaches maps ktime pkt hreach]
    simp only [fivem_xdp_rate_limit, hlast, min_interval, h2, if_true]
  · intro h
    have h2 : ¬ u64_sub ktime last < 76923 := fun hh => h ((u64_sub_lt_iff ktime last 76923).mp hh)
    refine ⟨Maps.mk (bpf_map_update_elem maps.rate_limit_map rate_limit_key ktime)
      (sync_fetch_and_add maps.packet_count_map key_passed 1), ?_,
      lookup_update_same _ _ _ _ hlast⟩
    rw [fivem_xdp_of_reaches maps ktime pkt hreach]
    simp only [fivem_xdp_rate_limit, hlast, min_interval, h2, if_false]

theorem rate_limiter_step_witness :
    reachesRateLimiter ⟨[1000], [0, 0]⟩ udpGame ∧
    bpf_map_lookup_elem [1000] rate_limit_key = some 1000 ∧
    ∃ maps', fivem_xdp ⟨[1000], [0, 0]⟩ 77923 udpGame = some (XDP_PASS, maps') ∧
      bpf_map_lookup_elem maps'.rate_limit_map rate_limit_key = some 77923 :=
  ⟨by decide, by decide,
    (rate_limiter_step ⟨[1000], [0, 0]⟩ 77923 udpGame 1000 (by decide) (by decide)).2.2
      (by decide)⟩

/-- Claim C3 (destination filter): for every well-formed IPv4 packet (counters available, no
truncated header, ihl at least 5) that is UDP, or TCP and not SYN-without-ACK, the rate limiter
is reached if and only if the destination address is 127.0.0.1 and the big-endian destination
port is in the allow-list of the packet's own protocol (30120, 30121 for UDP; 30120, 30121, 80,
443 for TCP); for a matching packet the result of `fivem_xdp` is the result of the rate limiter
(lines 114-136) on the maps and the clock reading; in every other case the verdict is
`XDP_PASS` and the maps are unchanged, for every clock reading and every content of the
maps. -/
theorem destination_filter_match_rule (maps : Maps) (ktime : Nat) (pkt : Packet)
    (hc : countersAvailable maps) (het : etherType pkt = 0x0800) (hlen : 34 ≤ pkt.length)
    (hihl : 5 ≤ ihlOf pkt)
    (hl4 : (protocolOf pkt = 17 ∧ 14 + 4 * ihlOf pkt + 8 ≤ pkt.length) ∨
      (protocolOf pkt = 6 ∧ 14 + 4 * ihlOf pkt + 20 ≤ pkt.length ∧
        ¬ (synFlag pkt = true ∧ ackFlag pkt = false))) :
    (reachesRateLimiter maps pkt ↔
      dstAddr pkt = [127, 0, 0, 1] ∧
      ((protocolOf pkt = 17 ∧ dstPort pkt ∈ [30120, 30121]) ∨
        (protocolOf pkt = 6 ∧ dstPort pkt ∈ [30120, 30121, 80, 443]))) ∧
    (¬ reachesRateLimiter maps pkt → fivem_xdp maps ktime pkt = some (XDP_PASS, maps)) ∧
    (dstAddr pkt = [127, 0, 0, 1] ∧
      ((protocolOf pkt = 17 ∧ dstPort pkt ∈ [30120, 30121]) ∨
        (protocolOf pkt = 6 ∧ dstPort pkt ∈ [30120, 30121, 80, 443])) →
      fivem_xdp maps ktime pkt = some (fivem_xdp_rate_limit maps ktime)) ∧
    (¬ (dstAddr pkt = [127, 0, 0, 1] ∧
      ((protocolOf pkt = 17 ∧ dstPort pkt ∈ [30120, 30121]) ∨
        (protocolOf pkt = 6 ∧ dstPort pkt ∈ [30120, 30121, 80, 443]))) →
      fivem_xdp maps ktime pkt = some (XDP_PASS, maps)) := by
  have h14 : ¬ pkt.length < 14 := by omega
  have h34 : ¬ (pkt.length < 34 ∨ ihlOf pkt < 5) := by omega
  have hfx := fivem_xdp_eq maps ktime pkt hc
  have hhd := fivem_xdp_headers_eq maps pkt hc
  have hiff : (reachesRateLimiter maps pkt ↔
      dstAddr pkt = [127, 0, 0, 1] ∧
      ((protocolOf pkt = 17 ∧ dstPort pkt ∈ [30120, 30121]) ∨
        (protocolOf pkt = 6 ∧ dstPort pkt ∈ [30120, 30121, 80, 443]))) ∧
      (¬ reachesRateLimiter maps pkt → fivem_xdp maps ktime pkt = some (XDP_PASS, maps)) := by
    unfold reachesRateLimiter
    rw [hhd, hfx]
    rcases hl4 with ⟨hp, hl⟩ | ⟨hp, hl, hs⟩
    · have hl2 : ¬ pkt.length < l4Offset pkt + 8 := by unfold l4Offset; omega
      simp only [classify, classifyUdp, h14, het, h34, hp, hl2, if_false, if_true, ne_eq,
        not_true_eq_false, List.mem_cons, List.mem_singleton, List.not_mem_nil, or_false]
      by_cases ha : dstAddr pkt = [127, 0, 0, 1] ∧ (dstPort pkt = 30120 ∨ dstPort pkt = 30121)
      · simp [ha]
      · simp only [ha, if_false]
        simp
        tauto
    · have hl2 : ¬ pkt.length < l4Offset pkt + 20 := by unfold l4Offset; omega
      simp only [classify, classifyTcp, h14, het, h34, hp, hl2, hs, if_false, if_true, ne_eq,
        not_true_eq_false, List.mem_cons, List.mem_singleton, List.not_mem_nil, or_false]
      by_cases ha : dstAddr pkt = [127, 0, 0, 1] ∧
          (dstPort pkt = 30120 ∨ dstPort pkt = 30121 ∨ dstPort pkt = 80 ∨ dstPort pkt = 443)
      · simp [ha]
      · simp only [ha, if_false]
        simp
        tauto
  refine ⟨hiff.1, hiff.2, ?_, ?_⟩
  · intro hm
    exact fivem_xdp_of_reaches maps ktime pkt (hiff.1.mpr hm)
  · intro hm
    exact hiff.2 (fun hr => hm (hiff.1.mp hr))

theorem destination_filter_match_rule_witness :
    (countersAvailable ⟨[0], [0, 0]⟩ ∧ protocolOf udpPort80 = 17 ∧
      dstAddr udpPort80 = [127, 0, 0, 1] ∧ dstPort udpPort80 = 80 ∧
      ¬ reachesRateLimiter ⟨[0], [0, 0]⟩ udpPort80 ∧
      fivem_xdp ⟨[0], [0, 0]⟩ 5 udpPort80 = some (XDP_PASS, ⟨[0], [0, 0]⟩)) ∧
    (countersAvailable ⟨[1000], [3, 4]⟩ ∧ protocolOf tcpSynAckGame = 6 ∧
      dstAddr tcpSynAckGame = [127, 0, 0, 1] ∧ dstPort tcpSynAckGame = 30120 ∧
      reachesRateLimiter ⟨[1000], [3, 4]⟩ tcpSynAckGame ∧
      fivem_xdp ⟨[1000], [3, 4]⟩ 1001 tcpSynAckGame = some (XDP_DROP, ⟨[1000], [4, 4]⟩) ∧
      fivem_xdp ⟨[1000], [3, 4]⟩ 77923 tcpSynAckGame = some (XDP_PASS, ⟨[77923], [3, 5]⟩)) :=
  ⟨⟨by decide, by decide, by decide, by decide, by decide,
    (destination_filter_match_rule ⟨[0], [0, 0]⟩ 5 udpPort80 (by decide) (by decide)
      (by decide) (by decide) (by decide)).2.1 (by decide)⟩,
   ⟨by decide, by decide, by decide, by decide,
    (destination_filter_match_rule ⟨[1000], [3, 4]⟩ 1001 tcpSynAckGame (by decide)
      (by decide) (by decide) (by decide) (by decide)).1.mpr (by decide),
    ((destination_filter_match_rule ⟨[1000], [3, 4]⟩ 1001 tcpSynAckGame (by decide)
      (by decide) (by decide) (by decide) (by decide)).2.2.1 (by decide)).trans (by decide),
    ((destination_filter_match_rule ⟨[1000], [3, 4]⟩ 77923 tcpSynAckGame (by decide)
      (by decide) (by decide) (by decide) (by decide)).2.2.1 (by decide)).trans (by decide)⟩⟩

/-- Claim C4 as stated fails: a well-formed TCP segment with SYN set and ACK clear addressed to
10.0.0.2 gets `XDP_DROP` from the flood heuristic, and a well-formed ICMP packet addressed to
10.0.0.2 falls through to the rate limiter, which drops it at clock reading 0 with stored
timestamp 0 and counts the drop. -/
theorem other_destination_not_always_pass :
    (countersAvailable ⟨[0], [0, 0]⟩ ∧ etherType tcpSynOtherHost = 0x0800 ∧
      34 ≤ tcpSynOtherHost.length ∧ 5 ≤ ihlOf tcpSynOtherHost ∧
      protocolOf tcpSynOtherHost = 6 ∧
      14 + 4 * ihlOf tcpSynOtherHost + 20 ≤ tcpSynOtherHost.length ∧
      dstAddr tcpSynOtherHost = [10, 0, 0, 2] ∧
      fivem_xdp ⟨[0], [0, 0]⟩ 0 tcpSynOtherHost = some (XDP_DROP, ⟨[0], [0, 0]⟩)) ∧
    (etherType icmpOtherHost = 0x0800 ∧ 34 ≤ icmpOtherHost.length ∧
      5 ≤ ihlOf icmpOtherHost ∧ protocolOf icmpOtherHost = 1 ∧
      dstAddr icmpOtherHost = [10, 0, 0, 2] ∧
      fivem_xdp ⟨[0], [0, 0]⟩ 0 icmpOtherHost = some (XDP_DROP, ⟨[0], [1, 0]⟩)) := by
  decide

/-- Claim C4, amended: for every well-formed IPv4 packet (counters available, no truncated
header, ihl at least 5) that is UDP, or TCP and not SYN-without-ACK, and whose destination
address is not 127.0.0.1, `fivem_xdp` returns `XDP_PASS` and leaves the maps unchanged,
whatever the destination port, the clock reading and the maps' contents. -/
theorem other_destination_passes (maps : Maps) (ktime : Nat) (pkt : Packet)
    (hc : countersAvailable maps) (het : etherType pkt = 0x0800) (hlen : 34 ≤ pkt.length)
    (hihl : 5 ≤ ihlOf pkt)
    (hl4 : (protocolOf pkt = 17 ∧ 14 + 4 * ihlOf pkt + 8 ≤ pkt.length) ∨
      (protocolOf pkt = 6 ∧ 14 + 4 * ihlOf pkt + 20 ≤ pkt.length ∧
        ¬ (synFlag pkt = true ∧ ackFlag pkt = false)))
    (hdst : dstAddr pkt ≠ [127, 0, 0, 1]) :
    fivem_xdp maps ktime pkt = some (XDP_PASS, maps) := by
  have h14 : ¬ pkt.length < 14 := by omega
  have h34 : ¬ (pkt.length < 34 ∨ ihlOf pkt < 5) := by omega
  rw [fivem_xdp_eq maps ktime pkt hc]
  rcases hl4 with ⟨hp, hl⟩ | ⟨hp, hl, hs⟩
  · have hl2 : ¬ pkt.length < l4Offset pkt + 8 := by unfold l4Offset; omega
    simp [classify, classifyUdp, h14, het, h34, hp, hl2, hdst]
  · have hl2 : ¬ pkt.length < l4Offset pkt + 20 := by unfold l4Offset; omega
    simp only [classify, classifyTcp, h14, het, h34, hp, hl2, hs, hdst, if_false, if_true,
      ne_eq, not_true_eq_false, false_and]
    simp

theorem other_destination_passes_witness :
    countersAvailable ⟨[7], [3, 4]⟩ ∧ dstAddr tcpAckOtherHost = [10, 0, 0, 2] ∧
    dstPort tcpAckOtherHost = 30120 ∧
    fivem_xdp ⟨[7], [3, 4]⟩ 8 tcpAckOtherHost = some (XDP_PASS, ⟨[7], [3, 4]⟩) :=
  ⟨by decide, by decide, by decide,
    other_destination_passes ⟨[7], [3, 4]⟩ 8 tcpAckOtherHost (by decide) (by decide) (by decide)
      (by decide) (by decide) (by decide)⟩

/-- Claim C5: with both counter slots available, every packet of at least 14 bytes whose
EtherType is not 0x0800 gets `XDP_PASS`, whatever its other bytes, the clock reading and the
maps' contents, and the timestamp and both counters are unchanged. -/
theorem non_ipv4_passes (maps : Maps) (ktime : Nat) (pkt : Packet)
    (hc : countersAvailable maps) (hlen : 14 ≤ pkt.length) (het : etherType pkt ≠ 0x0800) :
    fivem_xdp maps ktime pkt = some (XDP_PASS, maps) := by
  have h14 : ¬ pkt.length < 14 := by omega
  rw [fivem_xdp_eq maps ktime pkt hc]
  simp [classify, h14, het]

theorem non_ipv4_passes_witness :
    countersAvailable ⟨[7], [3, 4]⟩ ∧ 14 ≤ arpFrame.length ∧ etherType arpFrame = 0x0806 ∧
    fivem_xdp ⟨[7], [3, 4]⟩ 8 arpFrame = some (XDP_PASS, ⟨[7], [3, 4]⟩) :=
  ⟨by decide, by decide, by decide,
    non_ipv4_passes ⟨[7], [3, 4]⟩ 8 arpFrame (by decide) (by decide) (by decide)⟩

/-- Claim C6: with both counter slots available, `fivem_xdp` returns `XDP_ABORTED` if and only
if the packet is shorter than 14 bytes, or it is IPv4 and shorter than 34 bytes or has ihl
below 5, or it is a complete IPv4 header with protocol UDP and length below `14 + 4 * ihl + 8`,
or with protocol TCP and length below `14 + 4 * ihl + 20`; and whenever it aborts the maps are
unchanged. -/
theorem abort_iff_malformed (maps : Maps) (ktime : Nat) (pkt : Packet)
    (hc : countersAvailable maps) :
    ((fivem_xdp maps ktime pkt).map Prod.fst = some XDP_ABORTED ↔
      (pkt.length < 14 ∨
        (etherType pkt = 0x0800 ∧ (pkt.length < 34 ∨ ihlOf pkt < 5)) ∨
        (etherType pkt = 0x0800 ∧ 34 ≤ pkt.length ∧ 5 ≤ ihlOf pkt ∧ protocolOf pkt = 17 ∧
          pkt.length < 14 + 4 * ihlOf pkt + 8) ∨
        (etherType pkt = 0x0800 ∧ 34 ≤ pkt.length ∧ 5 ≤ ihlOf pkt ∧ protocolOf pkt = 6 ∧
          pkt.length < 14 + 4 * ihlOf pkt + 20))) ∧
    ((fivem_xdp maps ktime pkt).map Prod.fst = some XDP_ABORTED →
      fivem_xdp maps ktime pkt = some (XDP_ABORTED, maps)) := by
  have hrl : (fivem_xdp_rate_limit maps ktime).1 ≠ XDP_ABORTED := by
    unfold fivem_xdp_rate_limit
    cases bpf_map_lookup_elem maps.rate_limit_map rate_limit_key with
    | none => simp
    | some last => dsimp only; split_ifs <;> simp
  rw [fivem_xdp_eq maps ktime pkt hc]
  have key : ∀ f : Flow, f = classify pkt →
      (f = Flow.ret XDP_ABORTED ↔
        (pkt.length < 14 ∨
        (etherType pkt = 0x0800 ∧ (pkt.length < 34 ∨ ihlOf pkt < 5)) ∨
        (etherType pkt = 0x0800 ∧ 34 ≤ pkt.length ∧ 5 ≤ ihlOf pkt ∧ protocolOf pkt = 17 ∧
          pkt.length < 14 + 4 * ihlOf pkt + 8) ∨
        (etherType pkt = 0x0800 ∧ 34 ≤ pkt.length ∧ 5 ≤ ihlOf pkt ∧ protocolOf pkt = 6 ∧
          pkt.length < 14 + 4 * ihlOf pkt + 20))) := by
    intro f hf
    subst hf
    unfold classify classifyUdp classifyTcp l4Offset
    split_ifs <;> simp <;> omega
  have key2 := key (classify pkt) rfl
  cases hcl : classify pkt with
  | ret v =>
    rw [hcl] at key2
    simp only [Option.map_some', Option.some.injEq, Flow.ret.injEq] at key2 ⊢
    refine ⟨key2, ?_⟩
    intro hv
    rw [hv]
  | rate_limit =>
    rw [hcl] at key2
    simp only [Option.map_some', Option.some.injEq, reduceCtorEq, false_iff] at key2 ⊢
    refine ⟨⟨fun h => absurd h hrl, fun h => absurd h key2⟩, fun h => absurd h hrl⟩

theorem abort_iff_malformed_witness :
    countersAvailable ⟨[7], [3, 4]⟩ ∧ ihlOf udpOptionsTruncated = 6 ∧
    udpOptionsTruncated.length = 45 ∧
    fivem_xdp ⟨[7], [3, 4]⟩ 8 udpOptionsTruncated = some (XDP_ABORTED, ⟨[7], [3, 4]⟩) :=
  ⟨by decide, by decide, by decide,
    (abort_iff_malformed ⟨[7], [3, 4]⟩ 8 udpOptionsTruncated (by decide)).2
      ((abort_iff_malformed ⟨[7], [3, 4]⟩ 8 udpOptionsTruncated (by decide)).1.mpr
        (Or.inr (Or.inr (Or.inl (by decide)))))⟩

/-- Claim C7: when the lookup of counter slot 0 (dropped) or of counter slot 1 (passed) fails,
`fivem_xdp` returns `XDP_ABORTED` and leaves the maps unchanged, for every packet, every clock
reading and every rate-limit state. -/
theorem counters_unavailable_aborts (maps : Maps) (ktime : Nat) (pkt : Packet)
    (h : bpf_map_lookup_elem maps.packet_count_map key_dropped = none ∨
      bpf_map_lookup_elem maps.packet_count_map key_passed = none) :
    fivem_xdp maps ktime pkt = some (XDP_ABORTED, maps) := by
  unfold fivem_xdp fivem_xdp_headers
  rcases h with h | h
  · simp [h]
  · cases hd : bpf_map_lookup_elem maps.packet_count_map key_dropped <;> simp [h]

theorem counters_unavailable_aborts_witness :
    bpf_map_lookup_elem [3] key_passed = none ∧
    fivem_xdp ⟨[7], [3]⟩ 8 arpFrame = some (XDP_ABORTED, ⟨[7], [3]⟩) :=
  ⟨by decide, counters_unavailable_aborts ⟨[7], [3]⟩ 8 arpFrame (Or.inr (by decide))⟩

/-- Claim C8: for every packet that reaches the rate limiter, if the rate-limit lookup fails
then `fivem_xdp` returns `XDP_PASS` for every clock reading, and neither counter nor any
timestamp is changed. -/
theorem rate_limit_store_unavailable_passes (maps : Maps) (ktime : Nat) (pkt : Packet)
    (hreach : reachesRateLimiter maps pkt)
    (hnone : bpf_map_lookup_elem maps.rate_limit_map rate_limit_key = none) :
    fivem_xdp maps ktime pkt = some (XDP_PASS, maps) := by
  rw [fivem_xdp_of_reaches maps ktime pkt hreach]
  simp [fivem_xdp_rate_limit, hnone]

theorem rate_limit_store_unavailable_passes_witness :
    reachesRateLimiter ⟨[], [3, 4]⟩ udpGame ∧
    fivem_xdp ⟨[], [3, 4]⟩ 8 udpGame = some (XDP_PASS, ⟨[], [3, 4]⟩) :=
  ⟨by decide,
    rate_limit_store_unavailable_passes ⟨[], [3, 4]⟩ 8 udpGame (by decide) (by decide)⟩

/-- Claim C9 as stated fails: with the timestamp at its initial value 0, the example packet
(TCP SYN+ACK to 127.0.0.1 port 30120) at clock reading 0 reaches the rate limiter and gets
`XDP_DROP`; the dropped counter goes from 0 to 1 and the timestamp stays 0. -/
theorem first_packet_at_zero_dropped :
    reachesRateLimiter ⟨[0], [0, 0]⟩ tcpSynAckGame ∧
    bpf_map_lookup_elem [0] rate_limit_key = some 0 ∧
    fivem_xdp ⟨[0], [0, 0]⟩ 0 tcpSynAckGame = some (XDP_DROP, ⟨[0], [1, 0]⟩) := by
  decide

/-- Claim C9, amended: with the timestamp at its initial value 0 and a 64-bit clock reading
`now`, the first packet that reaches the rate limiter gets `XDP_PASS`, the timestamp becoming
`now`, when `now` is at least 76923, and gets `XDP_DROP`, the timestamp staying 0, when `now`
is below 76923. -/
theorem first_packet_pass_iff (maps : Maps) (ktime : Nat) (pkt : Packet)
    (hreach : reachesRateLimiter maps pkt)
    (h0 : bpf_map_lookup_elem maps.rate_limit_map rate_limit_key = some 0)
    (hk : ktime < U64_MOD) :
    (76923 ≤ ktime →
      ∃ maps', fivem_xdp maps ktime pkt = some (XDP_PASS, maps') ∧
        bpf_map_lookup_elem maps'.rate_limit_map rate_limit_key = some ktime) ∧
    (ktime < 76923 →
      ∃ maps', fivem_xdp maps ktime pkt = some (XDP_DROP, maps') ∧
        bpf_map_lookup_elem maps'.rate_limit_map rate_limit_key = some 0) := by
  have hsub : u64_sub ktime 0 = ktime := by
    unfold u64_sub
    unfold U64_MOD at hk ⊢
    omega
  constructor
  · intro h
    have h2 : ¬ u64_sub ktime 0 < 76923 := by omega
    refine ⟨Maps.mk (bpf_map_update_elem maps.rate_limit_map rate_limit_key ktime)
      (sync_fetch_and_add maps.packet_count_map key_passed 1), ?_,
      lookup_update_same _ _ _ _ h0⟩
    rw [fivem_xdp_of_reaches maps ktime pkt hreach]
    simp only [fivem_xdp_rate_limit, h0, min_interval, h2, if_false]
  · intro h
    have h2 : u64_sub ktime 0 < 76923 := by omega
    refine ⟨Maps.mk maps.rate_limit_map
      (sync_fetch_and_add maps.packet_count_map key_dropped 1), ?_, h0⟩
    rw [fivem_xdp_of_reaches maps ktime pkt hreach]
    simp only [fivem_xdp_rate_limit, h0, min_interval, h2, if_true]

theorem first_packet_pass_iff_witness :
    reachesRateLimiter ⟨[0], [0, 0]⟩ tcpSynAckGame ∧ 76923 < U64_MOD ∧
    ∃ maps', fivem_xdp ⟨[0], [0, 0]⟩ 76923 tcpSynAckGame = some (XDP_PASS, maps') ∧
      bpf_map_lookup_elem maps'.rate_limit_map rate_limit_key = some 76923 :=
  ⟨by decide, by decide,
    (first_packet_pass_iff ⟨[0], [0, 0]⟩ 76923 tcpSynAckGame (by decide) (by decide) (by decide)).1
      (by decide)⟩

/-- Claim C10 (counter accounting): for every invocation that reaches the rate limiter with the
rate-limit slot available, the verdict is `XDP_DROP` or `XDP_PASS` and exactly one counter
changes, by one modulo 2^64: the dropped counter when the verdict is `XDP_DROP`, the passed
counter when it is `XDP_PASS`; the other counter keeps its value. -/
theorem counter_accounting (maps : Maps) (ktime : Nat) (pkt : Packet) (last d p : Nat)
    (hreach : reachesRateLimiter maps pkt)
    (hlast : bpf_map_lookup_elem maps.rate_limit_map rate_limit_key = some last)
    (hd : bpf_map_lookup_elem maps.packet_count_map key_dropped = some d)
    (hp : bpf_map_lookup_elem maps.packet_count_map key_passed = some p) :
    ∃ v maps', fivem_xdp maps ktime pkt = some (v, maps') ∧
      ((v = XDP_DROP ∧
          bpf_map_lookup_elem maps'.packet_count_map key_dropped = some ((d + 1) % 2 ^ 64) ∧
          (d + 1) % 2 ^ 64 ≠ d ∧
          bpf_map_lookup_elem maps'.packet_count_map key_passed = some p) ∨
        (v = XDP_PASS ∧
          bpf_map_lookup_elem maps'.packet_count_map key_passed = some ((p + 1) % 2 ^ 64) ∧
          (p + 1) % 2 ^ 64 ≠ p ∧
          bpf_map_lookup_elem maps'.packet_count_map key_dropped = some d)) := by
  have hU : U64_MOD = 2 ^ 64 := by decide
  have hne : key_dropped ≠ key_passed := by decide
  rw [fivem_xdp_of_reaches maps ktime pkt hreach]
  by_cases h : u64_sub ktime last < 76923
  · refine ⟨XDP_DROP, Maps.mk maps.rate_limit_map
      (sync_fetch_and_add maps.packet_count_map key_dropped 1), ?_, Or.inl ⟨rfl, ?_, ?_, ?_⟩⟩
    · simp only [fivem_xdp_rate_limit, hlast, min_interval, h, if_true]
    · rw [← hU]; exact lookup_fetch_add_same _ _ _ _ hd
    · omega
    · rw [← hp]; exact lookup_fetch_add_other _ _ _ _ hne
  · refine ⟨XDP_PASS, Maps.mk (bpf_map_update_elem maps.rate_limit_map rate_limit_key ktime)
      (sync_fetch_and_add maps.packet_count_map key_passed 1), ?_, Or.inr ⟨rfl, ?_, ?_, ?_⟩⟩
    · simp only [fivem_xdp_rate_limit, hlast, min_interval, h, if_false]
    · rw [← hU]; exact lookup_fetch_add_same _ _ _ _ hp
    · omega
    · rw [← hd]; exact lookup_fetch_add_other _ _ _ _ (Ne.symm hne)

theorem counter_accounting_witness :
    reachesRateLimiter ⟨[1000], [18446744073709551615, 4]⟩ udpGame ∧
    ∃ v maps', fivem_xdp ⟨[1000], [18446744073709551615, 4]⟩ 1001 udpGame = some (v, maps') ∧
      ((v = XDP_DROP ∧
          bpf_map_lookup_elem maps'.packet_count_map key_dropped
            = some ((18446744073709551615 + 1) % 2 ^ 64) ∧
          (18446744073709551615 + 1) % 2 ^ 64 ≠ 18446744073709551615 ∧
          bpf_map_lookup_elem maps'.packet_count_map key_passed = some 4) ∨
        (v = XDP_PASS ∧
          bpf_map_lookup_elem maps'.packet_count_map key_passed = some ((4 + 1) % 2 ^ 64) ∧
          (4 + 1) % 2 ^ 64 ≠ 4 ∧
          bpf_map_lookup_elem maps'.packet_count_map key_dropped
            = some 18446744073709551615)) :=
  ⟨by decide,
    counter_accounting ⟨[1000], [18446744073709551615, 4]⟩ 1001 udpGame 1000
      18446744073709551615 4 (by decide) (by decide) (by decide) (by decide)⟩

/-! ## Invocations and sequences of invocations -/

theorem fivem_xdp_headers_unavailable (maps : Maps) (pkt : Packet)
    (h : ¬ countersAvailable maps) :
    fivem_xdp_headers maps pkt = some (Flow.ret XDP_ABORTED) := by
  unfold countersAvailable at h
  unfold fivem_xdp_headers
  cases hd : bpf_map_lookup_elem maps.packet_count_map key_dropped <;>
    cases hp : bpf_map_lookup_elem maps.packet_count_map key_passed <;>
    simp [hd, hp] at h ⊢

theorem fivem_xdp_headers_total (maps : Maps) (pkt : Packet) :
    ∃ f, fivem_xdp_headers maps pkt = some f := by
  by_cases hc : countersAvailable maps
  · exact ⟨_, fivem_xdp_headers_eq maps pkt hc⟩
  · exact ⟨_, fivem_xdp_headers_unavailable maps pkt hc⟩

/-- The three ways an invocation can end: without touching the maps, by a rate-limiter drop,
or by a rate-limiter pass. -/
theorem fivem_xdp_cases (maps : Maps) (ktime : Nat) (pkt : Packet) :
    ((¬ reachesRateLimiter maps pkt ∨
        bpf_map_lookup_elem maps.rate_limit_map rate_limit_key = none) ∧
      ∃ v, fivem_xdp maps ktime pkt = some (v, maps)) ∨
    (reachesRateLimiter maps pkt ∧
      ∃ last, bpf_map_lookup_elem maps.rate_limit_map rate_limit_key = some last ∧
        u64_sub ktime last < 76923 ∧
        fivem_xdp maps ktime pkt = some (XDP_DROP, Maps.mk maps.rate_limit_map
          (sync_fetch_and_add maps.packet_count_map key_dropped 1))) ∨
    (reachesRateLimiter maps pkt ∧
      ∃ last, bpf_map_lookup_elem maps.rate_limit_map rate_limit_key = some last ∧
        ¬ u64_sub ktime last < 76923 ∧
        fivem_xdp maps ktime pkt = some (XDP_PASS,
          Maps.mk (bpf_map_update_elem maps.rate_limit_map rate_limit_key ktime)
            (sync_fetch_and_add maps.packet_count_map key_passed 1))) := by
  obtain ⟨f, hf⟩ := fivem_xdp_headers_total maps pkt
  cases f with
  | ret v =>
    refine Or.inl ⟨Or.inl ?_, v, ?_⟩
    · unfold reachesRateLimiter; rw [hf]; simp
    · simp [fivem_xdp, hf]
  | rate_limit =>
    have hr : reachesRateLimiter maps pkt := hf
    rw [fivem_xdp_of_reaches maps ktime pkt hr]
    cases hl : bpf_map_lookup_elem maps.rate_limit_map rate_limit_key with
    | none =>
      refine Or.inl ⟨Or.inr rfl, XDP_PASS, ?_⟩
      simp [fivem_xdp_rate_limit, hl]
    | some last =>
      by_cases h : u64_sub ktime last < 76923
      · refine Or.inr (Or.inl ⟨hr, last, rfl, h, ?_⟩)
        simp only [fivem_xdp_rate_limit, hl, min_interval, h, if_true]
      · refine Or.inr (Or.inr ⟨hr, last, rfl, h, ?_⟩)
        simp only [fivem_xdp_rate_limit, hl, min_interval, h, if_false]

theorem u64_add_one_ne (c : Nat) : (c + 1) % U64_MOD ≠ c := by
  unfold U64_MOD
  omega

/-- One step of a sequence, as one of the three outcomes of `fivem_xdp_cases`, seen through
`run` and `passTimes`. -/
theorem step_cases (maps : Maps) (ktime : Nat) (pkt : Packet) (rest : List (Nat × Packet)) :
    ((¬ reachesRateLimiter maps pkt ∨
        bpf_map_lookup_elem maps.rate_limit_map rate_limit_key = none) ∧
      run maps ((ktime, pkt) :: rest) = run maps rest ∧
      passTimes maps ((ktime, pkt) :: rest) = passTimes maps rest) ∨
    (∃ maps' last, bpf_map_lookup_elem maps.rate_limit_map rate_limit_key = some last ∧
      u64_sub ktime last < 76923 ∧
      maps' = Maps.mk maps.rate_limit_map
        (sync_fetch_and_add maps.packet_count_map key_dropped 1) ∧
      countersAvailable maps' ∧
      run maps ((ktime, pkt) :: rest) = run maps' rest ∧
      passTimes maps ((ktime, pkt) :: rest) = passTimes maps' rest) ∨
    (∃ maps' last, bpf_map_lookup_elem maps.rate_limit_map rate_limit_key = some last ∧
      ¬ u64_sub ktime last < 76923 ∧
      maps' = Maps.mk (bpf_map_update_elem maps.rate_limit_map rate_limit_key ktime)
        (sync_fetch_and_add maps.packet_count_map key_passed 1) ∧
      countersAvailable maps' ∧
      bpf_map_lookup_elem maps'.rate_limit_map rate_limit_key = some ktime ∧
      run maps ((ktime, pkt) :: rest) = run maps' rest ∧
      passTimes maps ((ktime, pkt) :: rest) = ktime :: passTimes maps' rest) := by
  rcases fivem_xdp_cases maps ktime pkt with ⟨hn, v, hv⟩ | ⟨hr, last, hl, hlt, hv⟩ |
    ⟨hr, last, hl, hlt, hv⟩
  · left
    refine ⟨hn, ?_, ?_⟩ <;> simp [run, passTimes, hv]
  · right; left
    obtain ⟨hd, hp⟩ := countersAvailable_of_reaches maps pkt hr
    obtain ⟨d, hd⟩ := Option.isSome_iff_exists.mp hd
    refine ⟨_, last, hl, hlt, rfl, ?_, ?_, ?_⟩
    · unfold countersAvailable
      rw [lookup_fetch_add_same _ _ _ _ hd, lookup_fetch_add_other _ _ _ _ (by decide)]
      exact ⟨rfl, hp⟩
    · simp [run, hv]
    · simp [passTimes, hv]
  · right; right
    obtain ⟨hd, hp⟩ := countersAvailable_of_reaches maps pkt hr
    obtain ⟨p, hp⟩ := Option.isSome_iff_exists.mp hp
    refine ⟨_, last, hl, hlt, rfl, ?_, lookup_update_same _ _ _ _ hl, ?_, ?_⟩
    · unfold countersAvailable
      rw [lookup_fetch_add_same _ _ _ _ hp, lookup_fetch_add_other _ _ _ _ (by decide)]
      exact ⟨hd, rfl⟩
    · simp [run, hv]
    · have hne : bpf_map_lookup_elem
          (sync_fetch_and_add maps.packet_count_map key_passed 1) key_passed
          ≠ bpf_map_lookup_elem maps.packet_count_map key_passed := by
        rw [lookup_fetch_add_same _ _ _ _ hp, hp]
        intro h
        exact u64_add_one_ne p (Option.some.inj h)
      simp [passTimes, hv, hne]

theorem u64_sub_ge_of_le (now last : Nat) (hle : last ≤ now)
    (h : ¬ u64_sub now last < 76923) : last + 76923 ≤ now := by
  rw [u64_sub_lt_iff] at h
  omega

/-- Invariant of a sequence with non-decreasing clock readings, started with the timestamp
`last` not above any reading: the run returns, the final timestamp is the reading of the most
recent rate-limiter pass (or `last`), and the passes are at least 76923 apart. -/
theorem run_timestamp_invariant (inputs : List (Nat × Packet)) :
    ∀ (maps : Maps) (last : Nat),
      bpf_map_lookup_elem maps.rate_limit_map rate_limit_key = some last →
      List.Pairwise (fun a b => a ≤ b) (inputs.map Prod.fst) →
      (∀ t ∈ inputs.map Prod.fst, last ≤ t) →
      ∃ maps', run maps inputs = some maps' ∧
        bpf_map_lookup_elem maps'.rate_limit_map rate_limit_key
          = some ((passTimes maps inputs).getLast?.getD last) ∧
        List.Pairwise (fun a b => a + 76923 ≤ b) (passTimes maps inputs) ∧
        ∀ x ∈ passTimes maps inputs, last + 76923 ≤ x ∧ x ∈ inputs.map Prod.fst := by
  induction inputs with
  | nil =>
    intro maps last hl _ _
    exact ⟨maps, rfl, by simpa [passTimes] using hl, by simp [passTimes], by simp [passTimes]⟩
  | cons inp rest ih =>
    obtain ⟨t, pkt⟩ := inp
    intro maps last hl hs hge
    simp only [List.map_cons, List.pairwise_cons, List.mem_cons, forall_eq_or_imp] at hs hge
    obtain ⟨hhead, hsrest⟩ := hs
    obtain ⟨hlt, hgerest⟩ := hge
    rcases step_cases maps t pkt rest with ⟨_, hrun, hpt⟩ | ⟨m1, _, _, _, hm1, _, hrun, hpt⟩ |
      ⟨m1, last1, hl1, hnlt, _, _, hl2, hrun, hpt⟩
    · obtain ⟨m2, h1, h2, h3, h4⟩ := ih maps last hl hsrest hgerest
      refine ⟨m2, by rw [hrun]; exact h1, by rw [hpt]; exact h2, by rw [hpt]; exact h3, ?_⟩
      intro x hx
      rw [hpt] at hx
      exact ⟨(h4 x hx).1, List.mem_cons_of_mem _ (h4 x hx).2⟩
    · have hl' : bpf_map_lookup_elem m1.rate_limit_map rate_limit_key = some last := by
        rw [hm1]; exact hl
      obtain ⟨m2, h1, h2, h3, h4⟩ := ih m1 last hl' hsrest hgerest
      refine ⟨m2, by rw [hrun]; exact h1, by rw [hpt]; exact h2, by rw [hpt]; exact h3, ?_⟩
      intro x hx
      rw [hpt] at hx
      exact ⟨(h4 x hx).1, List.mem_cons_of_mem _ (h4 x hx).2⟩
    · have hlast : last1 = last := by
        rw [hl] at hl1; exact (Option.some.inj hl1).symm
      subst hlast
      have hgap : last1 + 76923 ≤ t := u64_sub_ge_of_le t last1 hlt hnlt
      obtain ⟨m2, h1, h2, h3, h4⟩ := ih m1 t hl2 hsrest hhead
      refine ⟨m2, by rw [hrun]; exact h1, ?_, ?_, ?_⟩
      · rw [hpt, List.getLast?_cons]
        exact h2
      · rw [hpt, List.pairwise_cons]
        exact ⟨fun x hx => (h4 x hx).1, h3⟩
      · intro x hx
        rw [hpt] at hx
        rcases List.mem_cons.mp hx with hx | hx
        · subst hx
          exact ⟨hgap, List.mem_cons_self _ _⟩
        · have := h4 x hx
          exact ⟨by omega, List.mem_cons_of_mem _ this.2⟩

theorem run_append (a b : List (Nat × Packet)) :
    ∀ maps : Maps, run maps (a ++ b) = (run maps a).bind (fun m => run m b) := by
  induction a with
  | nil => intro maps; rfl
  | cons inp rest ih =>
    obtain ⟨t, pkt⟩ := inp
    intro maps
    simp only [List.cons_append, run]
    cases fivem_xdp maps t pkt with
    | none => rfl
    | some r => exact ih r.2

/-- Claim C11 as stated fails: with the dropped counter at 2^64 - 1, one invocation dropped by
the rate limiter wraps the counter to 0, which is less than its value before. -/
theorem dropped_counter_wraps :
    bpf_map_lookup_elem (Maps.mk [0] [18446744073709551615, 0]).packet_count_map key_dropped
      = some (2 ^ 64 - 1) ∧
    ∃ maps', run (Maps.mk [0] [18446744073709551615, 0]) [(0, udpGame)] = some maps' ∧
      bpf_map_lookup_elem maps'.packet_count_map key_dropped = some 0 ∧
      ¬ (2 ^ 64 - 1 ≤ 0) :=
  ⟨by decide, Maps.mk [0] [0, 0], by decide, by decide, by decide⟩

/-- Claim C11, amended: for every sequence of invocations on a shard (any packets, any clock
readings) from any state with 64-bit counter values `d` (dropped) and `p` (passed), the run
returns and the counters afterwards are `(d + kd) mod 2^64` and `(p + kp) mod 2^64` for some
numbers of increments `kd` and `kp` with `kd + kp` at most the number of invocations: a counter
is never reset and changes only by increments of one modulo 2^64 (so a counter at 2^64 - 1
wraps to 0 on its next increment). Hence, when `d` plus the number of invocations is below
2^64 the dropped counter afterwards is at least `d`, and when `p` plus the number of
invocations is below 2^64 the passed counter afterwards is at least `p`. -/
theorem counters_monotone_without_wrap (maps : Maps) (inputs : List (Nat × Packet))
    (d p : Nat)
    (hd : bpf_map_lookup_elem maps.packet_count_map key_dropped = some d)
    (hp : bpf_map_lookup_elem maps.packet_count_map key_passed = some p)
    (hd64 : d < 2 ^ 64) (hp64 : p < 2 ^ 64) :
    ∃ maps' kd kp, run maps inputs = some maps' ∧ kd + kp ≤ inputs.length ∧
      bpf_map_lookup_elem maps'.packet_count_map key_dropped = some ((d + kd) % 2 ^ 64) ∧
      bpf_map_lookup_elem maps'.packet_count_map key_passed = some ((p + kp) % 2 ^ 64) ∧
      (d + inputs.length < 2 ^ 64 → d ≤ (d + kd) % 2 ^ 64) ∧
      (p + inputs.length < 2 ^ 64 → p ≤ (p + kp) % 2 ^ 64) := by
  have hU : U64_MOD = 18446744073709551616 := rfl
  have hpow : (2 : Nat) ^ 64 = 18446744073709551616 := by decide
  rw [hpow] at hd64 hp64
  simp only [hpow]
  have core : ∀ (inputs : List (Nat × Packet)) (maps : Maps) (d p : Nat),
      bpf_map_lookup_elem maps.packet_count_map key_dropped = some d →
      bpf_map_lookup_elem maps.packet_count_map key_passed = some p →
      d < 18446744073709551616 → p < 18446744073709551616 →
      ∃ maps' kd kp, run maps inputs = some maps' ∧ kd + kp ≤ inputs.length ∧
        bpf_map_lookup_elem maps'.packet_count_map key_dropped
          = some ((d + kd) % 18446744073709551616) ∧
        bpf_map_lookup_elem maps'.packet_count_map key_passed
          = some ((p + kp) % 18446744073709551616) := by
    intro inputs
    induction inputs with
    | nil =>
      intro maps d p hd hp hd64 hp64
      refine ⟨maps, 0, 0, rfl, le_refl _, ?_, ?_⟩
      · rw [hd, Nat.add_zero, Nat.mod_eq_of_lt hd64]
      · rw [hp, Nat.add_zero, Nat.mod_eq_of_lt hp64]
    | cons inp rest ih =>
      obtain ⟨t, pkt⟩ := inp
      intro maps d p hd hp hd64 hp64
      simp only [List.length_cons]
      rcases step_cases maps t pkt rest with ⟨_, hrun, _⟩ | ⟨m1, _, _, _, hm1, _, hrun, _⟩ |
        ⟨m1, _, _, _, hm1, _, _, hrun, _⟩
      · obtain ⟨m2, kd, kp, h1, h2, h3, h4⟩ := ih maps d p hd hp hd64 hp64
        exact ⟨m2, kd, kp, by rw [hrun]; exact h1, by omega, h3, h4⟩
      · have hd1 : bpf_map_lookup_elem m1.packet_count_map key_dropped
            = some ((d + 1) % 18446744073709551616) := by
          rw [hm1]
          dsimp only
          rw [lookup_fetch_add_same _ _ _ _ hd, hU]
        have hp1 : bpf_map_lookup_elem m1.packet_count_map key_passed = some p := by
          rw [hm1]
          dsimp only
          rw [lookup_fetch_add_other _ _ _ _ (by decide), hp]
        obtain ⟨m2, kd, kp, h1, h2, h3, h4⟩ :=
          ih m1 ((d + 1) % 18446744073709551616) p hd1 hp1 (by omega) hp64
        refine ⟨m2, kd + 1, kp, by rw [hrun]; exact h1, by omega, ?_, h4⟩
        rw [h3]
        congr 1
        omega
      · have hp1 : bpf_map_lookup_elem m1.packet_count_map key_passed
            = some ((p + 1) % 18446744073709551616) := by
          rw [hm1]
          dsimp only
          rw [lookup_fetch_add_same _ _ _ _ hp, hU]
        have hd1 : bpf_map_lookup_elem m1.packet_count_map key_dropped = some d := by
          rw [hm1]
          dsimp only
          rw [lookup_fetch_add_other _ _ _ _ (by decide), hd]
        obtain ⟨m2, kd, kp, h1, h2, h3, h4⟩ :=
          ih m1 d ((p + 1) % 18446744073709551616) hd1 hp1 hd64 (by omega)
        refine ⟨m2, kd, kp + 1, by rw [hrun]; exact h1, by omega, h3, ?_⟩
        rw [h4]
        congr 1
        omega
  obtain ⟨m2, kd, kp, h1, h2, h3, h4⟩ := core inputs maps d p hd hp hd64 hp64
  refine ⟨m2, kd, kp, h1, h2, h3, h4, ?_, ?_⟩
  · intro h; omega
  · intro h; omega

theorem counters_monotone_without_wrap_witness :
    bpf_map_lookup_elem [3, 4] key_dropped = some 3 ∧
    bpf_map_lookup_elem [3, 4] key_passed = some 4 ∧ 3 < 2 ^ 64 ∧ 4 < 2 ^ 64 ∧
    ∃ maps' kd kp,
      run ⟨[0], [3, 4]⟩ [(0, udpGame), (76923, udpGame), (76924, icmpOtherHost)]
        = some maps' ∧
      kd + kp ≤ 3 ∧
      bpf_map_lookup_elem maps'.packet_count_map key_dropped = some ((3 + kd) % 2 ^ 64) ∧
      bpf_map_lookup_elem maps'.packet_count_map key_passed = some ((4 + kp) % 2 ^ 64) ∧
      3 ≤ (3 + kd) % 2 ^ 64 ∧ 4 ≤ (4 + kp) % 2 ^ 64 := by
  obtain ⟨m, kd, kp, h1, h2, h3, h4, h5, h6⟩ :=
    counters_monotone_without_wrap ⟨[0], [3, 4]⟩
      [(0, udpGame), (76923, udpGame), (76924, icmpOtherHost)] 3 4 (by decide) (by decide)
      (by decide) (by decide)
  exact ⟨by decide, by decide, by decide, by decide, m, kd, kp, h1, h2, h3, h4,
    h5 (by decide), h6 (by decide)⟩

/-- Claim C12: starting from the timestamp 0, for every sequence of invocations whose clock
readings are non-decreasing, every invocation of the sequence (the one after any prefix `pre`)
leaves a stored timestamp greater than or equal to the one before it, and that timestamp is 0
or the clock reading of an earlier or the current invocation. -/
theorem timestamp_monotone (maps : Maps) (pre : List (Nat × Packet)) (t : Nat) (pkt : Packet)
    (h0 : bpf_map_lookup_elem maps.rate_limit_map rate_limit_key = some 0)
    (hs : List.Pairwise (fun a b => a ≤ b) ((pre ++ [(t, pkt)]).map Prod.fst)) :
    ∃ m1 v m2 ts1 ts2, run maps pre = some m1 ∧ fivem_xdp m1 t pkt = some (v, m2) ∧
      run maps (pre ++ [(t, pkt)]) = some m2 ∧
      bpf_map_lookup_elem m1.rate_limit_map rate_limit_key = some ts1 ∧
      bpf_map_lookup_elem m2.rate_limit_map rate_limit_key = some ts2 ∧
      ts1 ≤ ts2 ∧ (ts2 = 0 ∨ ts2 ∈ (pre ++ [(t, pkt)]).map Prod.fst) := by
  simp only [List.map_append, List.map_cons, List.map_nil, List.pairwise_append,
    List.mem_singleton, forall_eq] at hs
  obtain ⟨hpre, _, hle⟩ := hs
  obtain ⟨m1, hrun, hts, _, hmem⟩ :=
    run_timestamp_invariant pre maps 0 h0 hpre (fun _ _ => Nat.zero_le _)
  have hts1 : (passTimes maps pre).getLast?.getD 0 = 0 ∨
      (passTimes maps pre).getLast?.getD 0 ∈ pre.map Prod.fst := by
    cases hg : (passTimes maps pre).getLast? with
    | none => left; rfl
    | some a => right; exact (hmem a (List.mem_of_getLast?_eq_some hg)).2
  have hts1le : (passTimes maps pre).getLast?.getD 0 ≤ t := by
    rcases hts1 with h | h
    · omega
    · exact hle _ h
  have happ : ∀ v m2, fivem_xdp m1 t pkt = some (v, m2) →
      run maps (pre ++ [(t, pkt)]) = some m2 := by
    intro v m2 hv
    rw [run_append, hrun]
    simp [run, hv]
  rcases fivem_xdp_cases m1 t pkt with ⟨_, v, hv⟩ | ⟨_, last, _, _, hv⟩ | ⟨_, last, hl, _, hv⟩
  · refine ⟨m1, v, m1, _, _, hrun, hv, happ _ _ hv, hts, hts, le_refl _, ?_⟩
    rcases hts1 with h | h
    · left; exact h
    · right; simp only [List.map_append, List.mem_append]; left; exact h
  · refine ⟨m1, _, _, _, _, hrun, hv, happ _ _ hv, hts, hts, le_refl _, ?_⟩
    rcases hts1 with h | h
    · left; exact h
    · right; simp only [List.map_append, List.mem_append]; left; exact h
  · refine ⟨m1, _, _, _, t, hrun, hv, happ _ _ hv, hts, lookup_update_same _ _ _ _ hl,
      hts1le, ?_⟩
    right
    simp

theorem timestamp_monotone_witness :
    bpf_map_lookup_elem [0] rate_limit_key = some 0 ∧
    ∃ m1 v m2 ts1 ts2,
      run ⟨[0], [0, 0]⟩ [(0, udpGame), (76923, udpGame)] = some m1 ∧
      fivem_xdp m1 153846 tcpSynAckGame = some (v, m2) ∧
      run ⟨[0], [0, 0]⟩ ([(0, udpGame), (76923, udpGame)] ++ [(153846, tcpSynAckGame)])
        = some m2 ∧
      bpf_map_lookup_elem m1.rate_limit_map rate_limit_key = some ts1 ∧
      bpf_map_lookup_elem m2.rate_limit_map rate_limit_key = some ts2 ∧
      ts1 ≤ ts2 ∧
      (ts2 = 0 ∨ ts2 ∈ ([(0, udpGame), (76923, udpGame)] ++ [(153846, tcpSynAckGame)]).map
        Prod.fst) :=
  ⟨by decide,
    timestamp_monotone ⟨[0], [0, 0]⟩ [(0, udpGame), (76923, udpGame)] 153846 tcpSynAckGame
      (by decide) (by decide)⟩

/-- Claim C13: every invocation returns, and when its verdict is `XDP_DROP` or `XDP_ABORTED`
the stored rate-limit timestamp (indeed the whole rate-limit map) is what it was before; an
invocation after which the rate-limit map differs returned `XDP_PASS` from the rate limiter. -/
theorem timestamp_written_only_on_pass (maps : Maps) (ktime : Nat) (pkt : Packet) :
    ∃ v maps', fivem_xdp maps ktime pkt = some (v, maps') ∧
      (v = XDP_DROP ∨ v = XDP_ABORTED →
        maps'.rate_limit_map = maps.rate_limit_map ∧
        bpf_map_lookup_elem maps'.rate_limit_map rate_limit_key
          = bpf_map_lookup_elem maps.rate_limit_map rate_limit_key) ∧
      (maps'.rate_limit_map ≠ maps.rate_limit_map →
        v = XDP_PASS ∧ reachesRateLimiter maps pkt ∧
        (bpf_map_lookup_elem maps.rate_limit_map rate_limit_key).isSome = true) := by
  rcases fivem_xdp_cases maps ktime pkt with ⟨_, v, hv⟩ | ⟨hr, last, hl, _, hv⟩ |
    ⟨hr, last, hl, _, hv⟩
  · exact ⟨v, maps, hv, fun _ => ⟨rfl, rfl⟩, fun h => absurd rfl h⟩
  · exact ⟨_, _, hv, fun _ => ⟨rfl, rfl⟩, fun h => absurd rfl h⟩
  · refine ⟨_, _, hv, ?_, fun _ => ⟨rfl, hr, ?_⟩⟩
    · intro h
      rcases h with h | h <;> cases h
    · rw [hl]; rfl

theorem burstFrom_length (n : Nat) : ∀ k, (burstFrom k n).length = n := by
  induction n with
  | zero => intro k; rfl
  | succ n ih => intro k; simp only [burstFrom, List.length_cons, ih]

theorem burstFrom_times (n : Nat) :
    ∀ k, List.Pairwise (fun a b => a ≤ b) ((burstFrom k n).map Prod.fst) ∧
      ∀ x ∈ (burstFrom k n).map Prod.fst, 76923 * k ≤ x ∧ x + 76923 ≤ 76923 * (k + n) := by
  induction n with
  | zero => intro k; simp [burstFrom]
  | succ n ih =>
    intro k
    obtain ⟨h1, h2⟩ := ih (k + 1)
    simp only [burstFrom, List.map_cons, List.pairwise_cons, List.mem_cons, forall_eq_or_imp]
    refine ⟨⟨?_, h1⟩, ?_, ?_⟩
    · intro x hx
      have := h2 x hx
      omega
    · omega
    · intro x hx
      have := h2 x hx
      omega

theorem reaches_udpGame (maps : Maps) (hc : countersAvailable maps) :
    reachesRateLimiter maps udpGame := by
  unfold reachesRateLimiter
  rw [fivem_xdp_headers_eq maps udpGame hc]
  decide

theorem burstFrom_all_pass (n : Nat) :
    ∀ (k : Nat) (maps : Maps), countersAvailable maps →
      bpf_map_lookup_elem maps.rate_limit_map rate_limit_key = some (76923 * k) →
      passTimes maps (burstFrom (k + 1) n) = (burstFrom (k + 1) n).map Prod.fst := by
  induction n with
  | zero => intro k maps _ _; rfl
  | succ n ih =>
    intro k maps hc hl
    simp only [burstFrom, List.map_cons]
    rcases step_cases maps (76923 * (k + 1)) udpGame (burstFrom (k + 1 + 1) n) with
      ⟨hn, _, _⟩ | ⟨m1, last, hl1, hlt, _, _, _, _⟩ | ⟨m1, last, _, _, _, hc1, hl2, _, hpt⟩
    · exfalso
      rcases hn with hn | hn
      · exact hn (reaches_udpGame maps hc)
      · rw [hl] at hn; cases hn
    · exfalso
      rw [hl] at hl1
      have := Option.some.inj hl1
      subst this
      rw [u64_sub_lt_iff] at hlt
      omega
    · rw [hpt, ih (k + 1) m1 hc1 hl2]

/-- Claim C14 fails on the code: from the initial maps, 13001 UDP datagrams to 127.0.0.1 port
30120 at the non-decreasing clock readings 76923, 2 * 76923, ..., 13001 * 76923 are all passed
by the rate limiter, and all these readings lie in the one-second window that starts at
76923; that is one more than `RATE_LIMIT`. -/
theorem rate_limit_exceeded_in_one_second :
    bpf_map_lookup_elem (Maps.mk [0] [0, 0]).rate_limit_map rate_limit_key = some 0 ∧
    List.Pairwise (fun a b => a ≤ b) ((burstFrom 1 13001).map Prod.fst) ∧
    passesInWindow (Maps.mk [0] [0, 0]) (burstFrom 1 13001) 76923 = 13001 ∧
    RATE_LIMIT < passesInWindow (Maps.mk [0] [0, 0]) (burstFrom 1 13001) 76923 := by
  have hpass : passTimes (Maps.mk [0] [0, 0]) (burstFrom (0 + 1) 13001)
      = (burstFrom (0 + 1) 13001).map Prod.fst :=
    burstFrom_all_pass 13001 0 (Maps.mk [0] [0, 0]) (by decide) (by decide)
  have htimes := burstFrom_times 13001 (0 + 1)
  have hcount : passesInWindow (Maps.mk [0] [0, 0]) (burstFrom (0 + 1) 13001) 76923 = 13001 := by
    unfold passesInWindow
    rw [hpass, List.filter_eq_self.mpr, List.length_map, burstFrom_length]
    intro x hx
    have := htimes.2 x hx
    exact decide_eq_true (by omega)
  refine ⟨by decide, htimes.1, hcount, ?_⟩
  rw [hcount]
  decide

/-- Claim C15: for every packet (every length and content) and every state, no load of
`fivem_xdp` falls outside the packet: the program always returns a verdict, the result is never
the out-of-bounds outcome `none`. -/
theorem no_read_past_bounds (maps : Maps) (ktime : Nat) (pkt : Packet) :
    fivem_xdp maps ktime pkt ≠ none ∧ fivem_xdp_headers maps pkt ≠ none ∧
    ∃ v maps', fivem_xdp maps ktime pkt = some (v, maps') := by
  obtain ⟨f, hf⟩ := fivem_xdp_headers_total maps pkt
  have h : ∃ v maps', fivem_xdp maps ktime pkt = some (v, maps') := by
    rcases fivem_xdp_cases maps ktime pkt with ⟨_, v, hv⟩ | ⟨_, _, _, _, hv⟩ | ⟨_, _, _, _, hv⟩
    · exact ⟨_, _, hv⟩
    · exact ⟨_, _, hv⟩
    · exact ⟨_, _, hv⟩
  obtain ⟨v, m, hv⟩ := h
  refine ⟨?_, ?_, v, m, hv⟩
  · rw [hv]; simp
  · rw [hf]; simp

/-- Claim C16: starting from the timestamp 0, for every sequence of invocations with
non-decreasing clock readings, the minimum interval `1000000000 / RATE_LIMIT` is 76923, any
two packets passed by the rate limiter have clock readings at least 76923 apart, and after
every prefix of the sequence the run has returned and the stored timestamp is the clock reading
of the most recent packet the limiter passed, or 0 when there is none. -/
theorem min_inter_arrival_time (maps : Maps) (inputs : List (Nat × Packet))
    (h0 : bpf_map_lookup_elem maps.rate_limit_map rate_limit_key = some 0)
    (hs : List.Pairwise (fun a b => a ≤ b) (inputs.map Prod.fst)) :
    1000000000 / RATE_LIMIT = 76923 ∧
    List.Pairwise (fun a b => a + 76923 ≤ b) (passTimes maps inputs) ∧
    ∀ n, ∃ maps', run maps (inputs.take n) = some maps' ∧
      bpf_map_lookup_elem maps'.rate_limit_map rate_limit_key
        = some ((passTimes maps (inputs.take n)).getLast?.getD 0) := by
  refine ⟨min_interval, ?_, ?_⟩
  · obtain ⟨_, _, _, h, _⟩ :=
      run_timestamp_invariant inputs maps 0 h0 hs (fun _ _ => Nat.zero_le _)
    exact h
  · intro n
    have hsn : List.Pairwise (fun a b => a ≤ b) ((inputs.take n).map Prod.fst) := by
      rw [List.map_take]
      exact List.Pairwise.sublist (List.take_sublist _ _) hs
    obtain ⟨m, h1, h2, _, _⟩ :=
      run_timestamp_invariant (inputs.take n) maps 0 h0 hsn (fun _ _ => Nat.zero_le _)
    exact ⟨m, h1, h2⟩

theorem min_inter_arrival_time_witness :
    bpf_map_lookup_elem [0] rate_limit_key = some 0 ∧
    passTimes ⟨[0], [0, 0]⟩
      [(0, udpGame), (76923, udpGame), (100000, icmpOtherHost), (153846, tcpSynAckGame)]
      = [76923, 153846] ∧
    List.Pairwise (fun a b => a + 76923 ≤ b) (passTimes ⟨[0], [0, 0]⟩
      [(0, udpGame), (76923, udpGame), (100000, icmpOtherHost), (153846, tcpSynAckGame)]) :=
  ⟨by decide, by decide,
    (min_inter_arrival_time ⟨[0], [0, 0]⟩
      [(0, udpGame), (76923, udpGame), (100000, icmpOtherHost), (153846, tcpSynAckGame)]
      (by decide) (by decide)).2.1⟩

/-- Claim C17: for every IPv4 packet of length at least 34 with ihl at least 5 and a protocol
byte other than 6 and 17, with both counter slots and the rate-limit slot available, the
destination filter is skipped and the rate limiter alone decides: `XDP_DROP` with the dropped
counter incremented (timestamp and passed counter kept) when `(now - last) mod 2^64 < 76923`,
`XDP_PASS` with the timestamp set to `now` and the passed counter incremented (dropped counter
kept) otherwise; the outcome is the rate limiter's own result, a function of the maps and the
clock reading only. -/
theorem other_protocols_rate_limited (maps : Maps) (ktime : Nat) (pkt : Packet) (last d p : Nat)
    (het : etherType pkt = 0x0800) (hlen : 34 ≤ pkt.length) (hihl : 5 ≤ ihlOf pkt)
    (htcp : protocolOf pkt ≠ 6) (hudp : protocolOf pkt ≠ 17)
    (hlast : bpf_map_lookup_elem maps.rate_limit_map rate_limit_key = some last)
    (hd : bpf_map_lookup_elem maps.packet_count_map key_dropped = some d)
    (hp : bpf_map_lookup_elem maps.packet_count_map key_passed = some p) :
    reachesRateLimiter maps pkt ∧
    fivem_xdp maps ktime pkt = some (fivem_xdp_rate_limit maps ktime) ∧
    (((ktime : Int) - (last : Int)) % 18446744073709551616 < 76923 →
      ∃ maps', fivem_xdp maps ktime pkt = some (XDP_DROP, maps') ∧
        bpf_map_lookup_elem maps'.packet_count_map key_dropped = some ((d + 1) % 2 ^ 64) ∧
        bpf_map_lookup_elem maps'.packet_count_map key_passed = some p ∧
        bpf_map_lookup_elem maps'.rate_limit_map rate_limit_key = some last) ∧
    (¬ ((ktime : Int) - (last : Int)) % 18446744073709551616 < 76923 →
      ∃ maps', fivem_xdp maps ktime pkt = some (XDP_PASS, maps') ∧
        bpf_map_lookup_elem maps'.packet_count_map key_passed = some ((p + 1) % 2 ^ 64) ∧
        bpf_map_lookup_elem maps'.packet_count_map key_dropped = some d ∧
        bpf_map_lookup_elem maps'.rate_limit_map rate_limit_key = some ktime) := by
  have hU : U64_MOD = 2 ^ 64 := by decide
  have hne : key_dropped ≠ key_passed := by decide
  have hc : countersAvailable maps := by
    unfold countersAvailable
    rw [hd, hp]
    exact ⟨rfl, rfl⟩
  have h14 : ¬ pkt.length < 14 := by omega
  have h34 : ¬ (pkt.length < 34 ∨ ihlOf pkt < 5) := by omega
  have hr : reachesRateLimiter maps pkt := by
    unfold reachesRateLimiter
    rw [fivem_xdp_headers_eq maps pkt hc]
    simp [classify, h14, het, h34, htcp, hudp]
  have hfx := fivem_xdp_of_reaches maps ktime pkt hr
  refine ⟨hr, hfx, ?_, ?_⟩
  · intro h
    have h2 : u64_sub ktime last < 76923 := (u64_sub_lt_iff ktime last 76923).mpr h
    refine ⟨Maps.mk maps.rate_limit_map
      (sync_fetch_and_add maps.packet_count_map key_dropped 1), ?_, ?_, ?_, hlast⟩
    · rw [hfx]
      simp only [fivem_xdp_rate_limit, hlast, min_interval, h2, if_true]
    · rw [← hU]; exact lookup_fetch_add_same _ _ _ _ hd
    · rw [← hp]; exact lookup_fetch_add_other _ _ _ _ hne
  · intro h
    have h2 : ¬ u64_sub ktime last < 76923 :=
      fun hh => h ((u64_sub_lt_iff ktime last 76923).mp hh)
    refine ⟨Maps.mk (bpf_map_update_elem maps.rate_limit_map rate_limit_key ktime)
      (sync_fetch_and_add maps.packet_count_map key_passed 1), ?_, ?_, ?_,
      lookup_update_same _ _ _ _ hlast⟩
    · rw [hfx]
      simp only [fivem_xdp_rate_limit, hlast, min_interval, h2, if_false]
    · rw [← hU]; exact lookup_fetch_add_same _ _ _ _ hp
    · rw [← hd]; exact lookup_fetch_add_other _ _ _ _ (Ne.symm hne)

theorem other_protocols_rate_limited_witness :
    protocolOf icmpOtherHost = 1 ∧ dstAddr icmpOtherHost = [10, 0, 0, 2] ∧
    reachesRateLimiter ⟨[1000], [3, 4]⟩ icmpOtherHost ∧
    ∃ maps', fivem_xdp ⟨[1000], [3, 4]⟩ 1001 icmpOtherHost = some (XDP_DROP, maps') ∧
      bpf_map_lookup_elem maps'.packet_count_map key_dropped = some ((3 + 1) % 2 ^ 64) ∧
      bpf_map_lookup_elem maps'.packet_count_map key_passed = some 4 ∧
      bpf_map_lookup_elem maps'.rate_limit_map rate_limit_key = some 1000 :=
  ⟨by decide, by decide,
    (other_protocols_rate_limited ⟨[1000], [3, 4]⟩ 1001 icmpOtherHost 1000 3 4 (by decide)
      (by decide) (by decide) (by decide) (by decide) (by decide) (by decide) (by decide)).1,
    (other_protocols_rate_limited ⟨[1000], [3, 4]⟩ 1001 icmpOtherHost 1000 3 4 (by decide)
      (by decide) (by decide) (by decide) (by decide) (by decide) (by decide)
      (by decide)).2.2.1 (by decide)⟩

/-- Claim C18: a `XDP_DROP` given by the flood heuristic to a well-formed TCP segment with SYN
set and ACK clear leaves the dropped counter, the passed counter and the rate-limit timestamp
as they were (the maps are unchanged); and for every invocation the dropped counter, holding
`d` before, holds `(d + 1) mod 2^64` afterwards if and only if the verdict is `XDP_DROP` and
it comes from the rate limiter. -/
theorem syn_drop_not_counted (maps : Maps) (ktime : Nat) (pkt : Packet) (d : Nat)
    (hd : bpf_map_lookup_elem maps.packet_count_map key_dropped = some d) :
    (countersAvailable maps → etherType pkt = 0x0800 → 34 ≤ pkt.length → 5 ≤ ihlOf pkt →
      protocolOf pkt = 6 → 14 + 4 * ihlOf pkt + 20 ≤ pkt.length →
      synFlag pkt = true → ackFlag pkt = false →
      fivem_xdp maps ktime pkt = some (XDP_DROP, maps) ∧ ¬ reachesRateLimiter maps pkt) ∧
    (∃ v maps', fivem_xdp maps ktime pkt = some (v, maps') ∧
      (bpf_map_lookup_elem maps'.packet_count_map key_dropped = some ((d + 1) % 2 ^ 64) ↔
        v = XDP_DROP ∧ reachesRateLimiter maps pkt)) := by
  have hU : U64_MOD = 2 ^ 64 := by decide
  have hne : key_passed ≠ key_dropped := by decide
  have hdne : some d ≠ some ((d + 1) % 2 ^ 64) := by
    intro h
    have h2 := u64_add_one_ne d
    rw [hU] at h2
    exact h2 (Option.some.inj h).symm
  constructor
  · intro hc het hlen hihl hproto htcp hsyn hack
    have h14 : ¬ pkt.length < 14 := by omega
    have h34 : ¬ (pkt.length < 34 ∨ ihlOf pkt < 5) := by omega
    have hl : ¬ pkt.length < l4Offset pkt + 20 := by unfold l4Offset; omega
    have hcl : classify pkt = Flow.ret XDP_DROP := by
      simp [classify, classifyTcp, h14, het, h34, hproto, hl, hsyn, hack]
    constructor
    · rw [fivem_xdp_eq maps ktime pkt hc, hcl]
    · unfold reachesRateLimiter
      rw [fivem_xdp_headers_eq maps pkt hc, hcl]
      simp
  · rcases fivem_xdp_cases maps ktime pkt with ⟨hn, v, hv⟩ | ⟨hr, last, hl, _, hv⟩ |
      ⟨hr, last, hl, _, hv⟩
    · refine ⟨v, maps, hv, ?_⟩
      rw [hd]
      constructor
      · intro h; exact absurd h hdne
      · rintro ⟨hvd, hr⟩
        rcases hn with hn | hn
        · exact absurd hr hn
        · exfalso
          rw [fivem_xdp_of_reaches maps ktime pkt hr] at hv
          simp [fivem_xdp_rate_limit, hn] at hv
          rw [hvd] at hv
          cases hv
    · refine ⟨_, _, hv, ?_⟩
      dsimp only
      rw [lookup_fetch_add_same _ _ _ _ hd, hU]
      exact ⟨fun _ => ⟨rfl, hr⟩, fun _ => rfl⟩
    · refine ⟨_, _, hv, ?_⟩
      dsimp only
      rw [lookup_fetch_add_other _ _ _ _ hne, hd]
      constructor
      · intro h; exact absurd h hdne
      · rintro ⟨hvd, _⟩
        cases hvd

theorem syn_drop_not_counted_witness :
    bpf_map_lookup_elem [3, 4] key_dropped = some 3 ∧
    fivem_xdp ⟨[7], [3, 4]⟩ 8 tcpSynPort9999 = some (XDP_DROP, ⟨[7], [3, 4]⟩) ∧
    ¬ reachesRateLimiter ⟨[7], [3, 4]⟩ tcpSynPort9999 :=
  ⟨by decide,
    (syn_drop_not_counted ⟨[7], [3, 4]⟩ 8 tcpSynPort9999 3 (by decide)).1 (by decide)
      (by decide) (by decide) (by decide) (by decide) (by decide) (by decide) (by decide)⟩

/-- Claim C19: for every state and clock reading, two packets of the same length that agree
on the EtherType, the ihl nibble, the protocol byte, the destination address, the destination
port and the TCP SYN and ACK bits get the same verdict and produce the same next state; no
other byte of the packet (MAC addresses, IP version nibble, source address, source port,
sequence numbers, payload) has any influence. -/
theorem decision_depends_only_on_fields (maps : Maps) (ktime : Nat) (p1 p2 : Packet)
    (hlen : p1.length = p2.length) (het : etherType p1 = etherType p2)
    (hihl : ihlOf p1 = ihlOf p2) (hproto : protocolOf p1 = protocolOf p2)
    (hdst : dstAddr p1 = dstAddr p2) (hport : dstPort p1 = dstPort p2)
    (hsyn : synFlag p1 = synFlag p2) (hack : ackFlag p1 = ackFlag p2) :
    fivem_xdp maps ktime p1 = fivem_xdp maps ktime p2 := by
  by_cases hc : countersAvailable maps
  · have hcl : classify p1 = classify p2 := by
      unfold classify classifyUdp classifyTcp l4Offset
      rw [hlen, het, hihl, hproto, hdst, hport, hsyn, hack]
    rw [fivem_xdp_eq maps ktime p1 hc, fivem_xdp_eq maps ktime p2 hc, hcl]
  · unfold fivem_xdp
    rw [fivem_xdp_headers_unavailable maps p1 hc, fivem_xdp_headers_unavailable maps p2 hc]

theorem decision_depends_only_on_fields_witness :
    tcpSynAckGame ≠ tcpSynAckGameOtherSource ∧
    fivem_xdp ⟨[1000], [3, 4]⟩ 100000 tcpSynAckGame
      = fivem_xdp ⟨[1000], [3, 4]⟩ 100000 tcpSynAckGameOtherSource :=
  ⟨by decide,
    decision_depends_only_on_fields ⟨[1000], [3, 4]⟩ 100000 tcpSynAckGame
      tcpSynAckGameOtherSource (by decide) (by decide) (by decide) (by decide) (by decide)
      (by decide) (by decide) (by decide)⟩

end FivemXdp
